import Mathlib

/-!
# goa HTTP client CLI generator: data model and payload strategies

Shallow embedding of `http/codegen/client_cli.go`.  Go strings are Lean
`String`s, slices are `List`s, nilable pointers are `Option`s and
`fmt.Sprintf` with `%s` verbs is string concatenation.  Functions that live
outside the embedded file (`codegen.Goify`, `codegen.KebabCase`,
`json.MarshalIndent` and the `%q` verb) are fields of `Ext`.
-/

namespace Goa

/-! ## External collaborators -/

/-- Functions called by `client_cli.go` whose bodies are outside the file:
`codegen.Goify`, `codegen.KebabCase`, `json.MarshalIndent` (with its prefix
and indent arguments, `none` standing for a non-nil error) and the quoting
done by the `%q` verb of `fmt.Sprintf`.  `V` is the type of example values
(`interface{}` in the source). -/
structure Ext (V : Type) where
  Goify : String → Bool → String
  KebabCase : String → String
  MarshalIndent : V → String → String → Option String
  Quote : String → String

/-! ## Input metadata (fields read by the generator) -/

/-- Argument of a payload constructor (`InitArgData`). -/
structure InitArgData (V : Type) where
  Name : String
  Description : String
  TypeName : String
  TypeRef : String
  Required : Bool
  Example : V
  Validate : String

/-- Payload constructor description (`InitData`); only `Args` is read by the
data builders. -/
structure InitData (V : Type) where
  Args : List (InitArgData V)

/-- Request side of a payload (`e.Payload.Request`). -/
structure RequestData (V : Type) where
  PayloadInit : Option (InitData V)

/-- Endpoint payload description (`e.Payload`). -/
structure PayloadData (V : Type) where
  Ref : String
  Request : RequestData V

/-- Method description (`e.Method`). -/
structure MethodData (V : Type) where
  Name : String
  Description : String
  VarName : String
  Payload : String
  PayloadRef : String
  PayloadDesc : String
  PayloadEx : V

/-- Endpoint description (`EndpointData`); `Payload` is a nilable pointer. -/
structure EndpointData (V : Type) where
  Method : MethodData V
  Payload : Option (PayloadData V)

/-- Service description (`svc.Service`). -/
structure ServiceInfo where
  Name : String
  Description : String
  PkgName : String

/-- Service with its endpoints (`ServiceData`). -/
structure ServiceData (V : Type) where
  Service : ServiceInfo
  Endpoints : List (EndpointData V)

/-! ## Template data -/

/-- Flag of a subcommand (`flagData`); `Type_` is the source's `Type` field,
a reserved word here. -/
structure flagData where
  Name : String
  Type_ : String
  FullName : String
  Description : String
  Required : Bool
  Example : String
  deriving DecidableEq, Repr

/-- Payload field of a build function (`fieldData`). -/
structure fieldData where
  Name : String
  VarName : String
  TypeName : String
  Init : String
  Deref : Bool
  deriving DecidableEq, Repr

/-- Build function description (`buildFunctionData`). -/
structure buildFunctionData (V : Type) where
  Name : String
  ActualParams : List String
  FormalParams : List String
  ServiceName : String
  MethodName : String
  ResultType : String
  Fields : List fieldData
  PayloadInit : Option (InitData V)

/-- Endpoint command (`subcommandData`). -/
structure subcommandData (V : Type) where
  Name : String
  FullName : String
  Description : String
  Flags : List flagData
  MethodVarName : String
  BuildFunction : Option (buildFunctionData V)
  Conversion : String
  Example : String

/-- Service command (`commandData`). -/
structure commandData (V : Type) where
  Name : String
  Description : String
  Subcommands : List (subcommandData V)
  Example : String
  PkgName : String

/-! ## Native type names -/

/-- Modelled from the spec: `codegen.GoNativeTypeName(design.Boolean)`, whose
body is outside the file. -/
def boolN : String := "bool"
/-- Modelled from the spec: `codegen.GoNativeTypeName(design.Int)`. -/
def intN : String := "int"
/-- Modelled from the spec: `codegen.GoNativeTypeName(design.Int32)`. -/
def int32N : String := "int32"
/-- Modelled from the spec: `codegen.GoNativeTypeName(design.Int64)`. -/
def int64N : String := "int64"
/-- Modelled from the spec: `codegen.GoNativeTypeName(design.UInt)`. -/
def uintN : String := "uint"
/-- Modelled from the spec: `codegen.GoNativeTypeName(design.UInt32)`. -/
def uint32N : String := "uint32"
/-- Modelled from the spec: `codegen.GoNativeTypeName(design.UInt64)`. -/
def uint64N : String := "uint64"
/-- Modelled from the spec: `codegen.GoNativeTypeName(design.Float32)`. -/
def float32N : String := "float32"
/-- Modelled from the spec: `codegen.GoNativeTypeName(design.Float64)`. -/
def float64N : String := "float64"
/-- Modelled from the spec: `codegen.GoNativeTypeName(design.String)`. -/
def stringN : String := "string"
/-- Modelled from the spec: `codegen.GoNativeTypeName(design.Bytes)`, the Go
byte slice type. -/
def bytesN : String := "[]byte"

/-- The ten scalar native type names of `flagType`'s first case, in source
order. -/
def scalarNames : List String :=
  [boolN, intN, int32N, int64N, uintN, uint32N, uint64N, float32N, float64N, stringN]

/-- The eleven native type names handled by `conversionCode` before its
default case. -/
def nativeNames : List String := scalarNames ++ [bytesN]

/-! ## String helpers from the Go standard library -/

/-- The `strings.ToUpper` call of `flagType`, on the ASCII letters that the
native type names are made of. -/
def ToUpper (s : String) : String := String.mk (s.data.map Char.toUpper)

/-- The test `strings.Contains(ex, "\n")`. -/
def containsNewline (s : String) : Bool := s.data.contains (Char.ofNat 10)

/-- The call `strings.Replace(ex, "'", "\\'", -1)`: every single quote gets
a backslash in front. -/
def escapeQuotes (s : String) : String :=
  String.mk (s.data.flatMap fun c => if c = Char.ofNat 39 then [Char.ofNat 92, c] else [c])

/-! ## Flag synthesis and conversion code (`client_cli.go`) -/

section Generator

variable {V : Type}

/-- The function `jsonExample`: the indented JSON of `v`, or `?` when marshalling
fails, put between single quotes when it spans several lines. -/
def jsonExample (X : Ext V) (v : V) : String :=
  let ex := match X.MarshalIndent v "   " "   " with
    | some b => b
    | none => "?"
  if containsNewline ex then "\x27" ++ escapeQuotes ex ++ "\x27" else ex

/-- The variadic `goify(terms...)`, with `terms[0]` as `t` and `terms[1:]` as
`rest`. -/
def goify (X : Ext V) (t : String) (rest : List String) : String :=
  rest.foldl (fun res u => res ++ X.Goify u true) (X.Goify t false)

/-- The error check that `conversionCode` puts after a parse when `checkErr`
is set (the second `fmt.Sprintf` of the function, without its leading
`parse`). -/
def valueCheck (errorVar errorType : String) : String :=
  "\nif err != nil \x7b\n\treturn nil, fmt.Errorf(\"invalid value for " ++ errorVar ++
    ", must be " ++ errorType ++ "\")\n\x7d"

/-- The tail of `conversionCode` after its `switch`: builds the returned code
from `parse`, `cast` and `checkErr` as left by the selected case. -/
def conversionTail (dst target errorVar errorType : String) (needCast : Bool)
    (parse cast : String) (checkErr : Bool) : String :=
  let pre := if checkErr then parse ++ valueCheck errorVar errorType else ""
  if !needCast then pre ++ cast
  else pre ++ cast ++ ("\n" ++ dst ++ " = &" ++ target)

/-- The default case of `conversionCode`: the JSON decoding snippet. -/
def jsonDecodeCode (X : Ext V) (frm dst errorVar ex : String) : String :=
  "err := json.Unmarshal([]byte(" ++ frm ++ "), &" ++ dst ++
    ")\nif err != nil \x7b\n\treturn nil, fmt.Errorf(\"invalid JSON for " ++ errorVar ++
    ", example of valid JSON:\\n%s\", " ++ X.Quote ex ++ ")\n\x7d"

/-- The function `conversionCode` (`frm` and `dst` are the source's `from` and `to`).  Each branch
passes on the `parse`, `cast` and `checkErr` values its `case` assigns. -/
def conversionCode (X : Ext V) (frm dst typeName errorVar errorType ex : String)
    (required : Bool) : String :=
  let needCast := !required && typeName != stringN && typeName != bytesN
  let target := if needCast then "val" else dst
  let tail := conversionTail dst target errorVar errorType needCast
  if typeName = boolN then
    tail (target ++ ", err := strconv.ParseBool(" ++ frm ++ ")") "" true
  else if typeName = intN then
    tail ("v, err := strconv.ParseInt(" ++ frm ++ ", 10, 64)") (target ++ " = int(v)") true
  else if typeName = int32N then
    tail ("v, err := strconv.ParseInt(" ++ frm ++ ", 10, 32)") (target ++ " = int32(v)") true
  else if typeName = int64N then
    tail (target ++ ", err := strconv.ParseInt(" ++ frm ++ ", 10, 64)") "" false
  else if typeName = uintN then
    tail ("v, err := strconv.ParseUInt(" ++ frm ++ ", 10, 64)") (target ++ " = uint(v)") true
  else if typeName = uint32N then
    tail ("v, err := strconv.ParseUInt(" ++ frm ++ ", 10, 32)") (target ++ " = uint32(v)") true
  else if typeName = uint64N then
    tail (target ++ ", err := strconv.ParseUInt(" ++ frm ++ ", 10, 64)") "" true
  else if typeName = float32N then
    tail ("v, err := strconv.ParseFloat(" ++ frm ++ ", 32)") (target ++ " = float32(v)") true
  else if typeName = float64N then
    tail (target ++ ", err := strconv.ParseFloat(" ++ frm ++ ", 64)") "" true
  else if typeName = stringN then
    tail (target ++ " = " ++ frm) "" false
  else if typeName = bytesN then
    tail (target ++ " = string(" ++ frm ++ ")") "" false
  else
    jsonDecodeCode X frm dst errorVar ex

/-- The function `fieldLoadCode`. -/
def fieldLoadCode (X : Ext V) (actual flagType : String) (arg : InitArgData V) : String :=
  let startIf := if !arg.Required then "if " ++ actual ++ " != \"\" \x7b\n" else ""
  let endIf := if !arg.Required then "\n\x7d" else ""
  let code :=
    if arg.TypeName = stringN then
      let ref := if !arg.Required then "&" else ""
      arg.Name ++ " = " ++ ref ++ actual
    else
      let ex := jsonExample X arg.Example
      let code := conversionCode X actual arg.Name arg.TypeName arg.Name flagType ex arg.Required
      if arg.Validate ≠ "" then
        code ++ ("\n" ++ arg.Validate ++ "\n" ++ "if err != nil \x7b\n\treturn nil, err\n\x7d")
      else code
  startIf ++ code ++ endIf

/-- The function `flagType`. -/
def flagType (tname : String) : String :=
  if tname ∈ scalarNames then ToUpper tname
  else if tname = bytesN then "STRING"
  else "JSON"

/-- The function `argToFlag`. -/
def argToFlag (X : Ext V) (svcn en : String) (arg : InitArgData V) : flagData :=
  let ex := jsonExample X arg.Example
  let fn := goify X svcn [en, arg.Name]
  { Name := X.KebabCase arg.Name
    Type_ := flagType arg.TypeName
    FullName := fn
    Description := arg.Description
    Required := arg.Required
    Example := ex }

/-- The locals `flags`, `actuals` and `args` of `buildSubcommandData` after
the three-way choice on the payload (lines 256-276): one flag, one actual
and one argument appended per argument of `PayloadInit`, or the single flag
`p` of a bare reference, or nothing. -/
def payloadFlags (X : Ext V) (svcn en : String) (m : MethodData V) (p : PayloadData V) :
    List flagData × List String × List (InitArgData V) :=
  match p.Request.PayloadInit with
  | some init =>
    init.Args.foldl
      (fun acc arg =>
        let f := argToFlag X svcn en arg
        (acc.1 ++ [f], acc.2.1 ++ [f.FullName], acc.2.2 ++ [arg]))
      ([], [], [])
  | none =>
    if p.Ref ≠ "" then
      let ex := jsonExample X m.PayloadEx
      let fn := goify X svcn [en, "p"]
      ([{ Name := "p"
          Type_ := flagType m.PayloadRef
          FullName := fn
          Description := m.PayloadDesc
          Required := true
          Example := ex }], [], [])
    else ([], [], [])

/-- The loop filling `formals` and `fdata` (lines 284-303).  It runs over
`args` and reads `flags[i]` beside `args[i]`; both lists were grown together,
so the walk is over the two lists side by side. -/
def buildFields (X : Ext V) :
    List flagData → List (InitArgData V) → List String × List fieldData
  | f :: flags, arg :: args =>
    let formal := f.FullName
    let code := fieldLoadCode X formal f.Type_ arg
    let tn := if f.Type_ = "JSON" then arg.TypeName else arg.TypeRef
    let fd : fieldData :=
      { Name := arg.Name
        VarName := arg.Name
        TypeName := tn
        Init := code
        Deref := decide (f.Type_ = "JSON") }
    let r := buildFields X flags args
    (formal :: r.1, fd :: r.2)
  | _, _ => ([], [])

/-- The function `buildSubcommandData`. -/
def buildSubcommandData (X : Ext V) (svc : ServiceData V) (e : EndpointData V) :
    subcommandData V :=
  let svcn := svc.Service.Name
  let en := e.Method.Name
  let name := goify X en []
  let fullName := goify X svcn [en]
  let description :=
    if e.Method.Description = "" then
      "Make request to the " ++ X.Quote e.Method.Name ++ " endpoint"
    else e.Method.Description
  let r : List flagData × Option (buildFunctionData V) × String :=
    match e.Payload with
    | none => ([], none, "")
    | some p =>
      let fa := payloadFlags X svcn en e.Method p
      let flags := fa.1
      let actuals := fa.2.1
      let args := fa.2.2
      if actuals.length > 0 then
        let ff := buildFields X flags args
        (flags,
         some { Name := "Build" ++ e.Method.Payload
                ActualParams := actuals
                FormalParams := ff.1
                ServiceName := svcn
                MethodName := en
                ResultType := svc.Service.PkgName ++ "." ++ e.Method.Payload
                Fields := ff.2
                PayloadInit := p.Request.PayloadInit },
         "")
      else
        match flags with
        | f0 :: _ =>
          (flags, none,
           conversionCode X "*p" "data" e.Method.Payload "p" f0.Type_ f0.Example true)
        | [] => (flags, none, "")
  let ex := r.1.foldl (fun ex f => ex ++ " --" ++ f.Name ++ " " ++ f.Example)
    (X.Goify svc.Service.Name false ++ " " ++ X.KebabCase name)
  { Name := name
    FullName := fullName
    Description := description
    Flags := r.1
    MethodVarName := e.Method.VarName
    BuildFunction := r.2.1
    Conversion := r.2.2
    Example := ex }

/-- The flag `p` synthesized for a bare payload reference. -/
def refFlag (X : Ext V) (svc : ServiceData V) (e : EndpointData V) : flagData :=
  { Name := "p"
    Type_ := flagType e.Method.PayloadRef
    FullName := goify X svc.Service.Name [e.Method.Name, "p"]
    Description := e.Method.PayloadDesc
    Required := true
    Example := jsonExample X e.Method.PayloadEx }

/-- The local `code` of `fieldLoadCode` (lines 383-395): the load code of the
field, before the presence guard is put around it. -/
def loadCode (X : Ext V) (actual flagType : String) (arg : InitArgData V) : String :=
  if arg.TypeName = stringN then
    let ref := if !arg.Required then "&" else ""
    arg.Name ++ " = " ++ ref ++ actual
  else
    let ex := jsonExample X arg.Example
    let code := conversionCode X actual arg.Name arg.TypeName arg.Name flagType ex arg.Required
    if arg.Validate ≠ "" then
      code ++ ("\n" ++ arg.Validate ++ "\n" ++ "if err != nil \x7b\n\treturn nil, err\n\x7d")
    else code

/-- The function `buildCommandData`.  The read of `subcommands[0]` panics on
a service without endpoints; the panic is the `error` result. -/
def buildCommandData (X : Ext V) (svc : ServiceData V) : Except String (commandData V) :=
  let name := X.Goify svc.Service.Name false
  let description :=
    if svc.Service.Description = "" then
      "Make requests to the " ++ X.Quote name ++ " service"
    else svc.Service.Description
  let subcommands := svc.Endpoints.map (buildSubcommandData X svc)
  match subcommands with
  | [] => Except.error "runtime error: index out of range [0] with length 0"
  | s0 :: _ =>
    Except.ok
      { Name := name
        Description := description
        Subcommands := subcommands
        Example := s0.Example
        PkgName := svc.Service.PkgName ++ "c" }

/-- HTTP service expression of the design root (`root.HTTPServices[i]`); only
its `Name()` is read. -/
structure ServiceExpr where
  Name : String

/-- The slice `data` filled by the first loop of `ClientCLIFiles` (lines
106-109): one `buildCommandData` per HTTP service, in order.  `get` is
`HTTPServices.Get`, whose body is outside the file; a panic of
`buildCommandData` ends the run. -/
def ClientCLIData (X : Ext V) (get : String → ServiceData V) :
    List ServiceExpr → Except String (List (commandData V))
  | [] => Except.ok []
  | svc :: rest =>
    match buildCommandData X (get svc.Name) with
    | Except.error err => Except.error err
    | Except.ok cmd =>
      match ClientCLIData X get rest with
      | Except.error err => Except.error err
      | Except.ok cmds => Except.ok (cmd :: cmds)

/-- The slice `usages` built by `endpointParser` (lines 140-152): one entry
per command, `strings.Join` being `String.intercalate`. -/
def endpointParserUsages (data : List (commandData V)) : List String :=
  data.map fun cmd =>
    let subs := cmd.Subcommands.map fun s => s.Name
    let lp := if subs.length > 1 then "(" else ""
    let rp := if subs.length > 1 then ")" else ""
    cmd.Name ++ " " ++ lp ++ "|".intercalate subs ++ rp

/-- The text between the back quotes of the template `usageT`, rendered on
the usages: every usage is followed by a line break. -/
def renderUsages (usages : List String) : String :=
  String.join (usages.map fun u => u ++ "\n")

end Generator

/-! ## Sample inputs -/

/-- Stand-ins for the external functions on simple inputs: integer example
values marshal to their decimal text, `%q` puts double quotes around a text
without special characters, and `Goify` and `KebabCase` leave a lower-case
word as it is (`Goify` capitalising its first letter when asked to). -/
def demoExt : Ext Int where
  Goify := fun s up => if up then s.capitalize else s
  KebabCase := fun s => s
  MarshalIndent := fun v _ _ => some (toString v)
  Quote := fun s => "\"" ++ s ++ "\""

/-- The service `calc` of the basic example. -/
def calcSvc : ServiceData Int :=
  { Service := { Name := "calc", Description := "", PkgName := "calcsvc" }
    Endpoints := [] }

/-- An integer argument named `n` of type `tn`. -/
def intArg (n tn : String) (req : Bool) : InitArgData Int :=
  { Name := n, Description := "", TypeName := tn, TypeRef := tn, Required := req
    Example := 1, Validate := "" }

/-- A method named `n` whose payload type is `pt`. -/
def demoMethod (n pt : String) : MethodData Int :=
  { Name := n, Description := "", VarName := n.capitalize, Payload := pt
    PayloadRef := pt, PayloadDesc := "", PayloadEx := 1 }

/-- Endpoint `add` with the two required `int` arguments `a` and `b`. -/
def addEndpoint : EndpointData Int :=
  { Method := demoMethod "add" "AddPayload"
    Payload := some
      { Ref := "*calcsvc.AddPayload"
        Request := { PayloadInit := some { Args := [intArg "a" "int" true, intArg "b" "int" true] } } } }

/-- Endpoint `neg` whose payload constructor has the single `int` argument `a`. -/
def negEndpoint : EndpointData Int :=
  { Method := demoMethod "neg" "NegPayload"
    Payload := some
      { Ref := "*calcsvc.NegPayload"
        Request := { PayloadInit := some { Args := [intArg "a" "int" true] } } } }

/-- Endpoint `show` whose payload is the bare reference `pt`. -/
def refEndpoint (pt : String) : EndpointData Int :=
  { Method := demoMethod "show" pt
    Payload := some { Ref := pt, Request := { PayloadInit := none } } }

/-- Endpoint `ping` without payload. -/
def pingEndpoint : EndpointData Int :=
  { Method := demoMethod "ping" "", Payload := none }

/-- The service `calc` with the endpoints `add` and `neg`. -/
def calcService : ServiceData Int :=
  { calcSvc with Endpoints := [addEndpoint, negEndpoint] }

/-- The service `health` with the single endpoint `ping`. -/
def healthService : ServiceData Int :=
  { Service := { Name := "health", Description := "", PkgName := "healthsvc" }
    Endpoints := [pingEndpoint] }

/-- The lookup `HTTPServices.Get` on the two sample services. -/
def demoGet (n : String) : ServiceData Int :=
  if n = "calc" then calcService else healthService

/-- An argument of type `string` named `name` with a pattern validation. -/
def nameArg (req : Bool) : InitArgData Int :=
  { Name := "name", Description := "", TypeName := "string", TypeRef := "string"
    Required := req, Example := 1
    Validate := "err = goa.MergeErrors(err, goa.ValidatePattern(\"name\", name, \"^[a-z]+$\"))" }

/-- An `int` argument named `a` with a minimum validation. -/
def checkedArg (req : Bool) : InitArgData Int :=
  { Name := "a", Description := "", TypeName := "int", TypeRef := "int"
    Required := req, Example := 1
    Validate := "err = goa.MergeErrors(err, goa.InvalidRangeError(\"a\", a, 0, true))" }

/-! ### Kebab case -/

/-- Modelled from the spec: `codegen.KebabCase`, whose body is outside the
file, on camel case and snake case names: every upper case letter starts a
new word, words are put in lower case and joined by `-`. -/
def kebabChars : Bool → List Char → List Char
  | _, [] => []
  | first, c :: cs =>
    if c.isUpper then
      (if first then [c.toLower] else [Char.ofNat 45, c.toLower]) ++ kebabChars false cs
    else if c = Char.ofNat 95 then Char.ofNat 45 :: kebabChars false cs
    else c :: kebabChars false cs

/-- The external functions with `KebabCase` as `kebabChars`; the others as in
`demoExt`. -/
def kebabExt : Ext Int :=
  { demoExt with KebabCase := fun s => String.mk (kebabChars true s.data) }

/-- Endpoint `listItems` without payload. -/
def listItemsEndpoint : EndpointData Int :=
  { Method := demoMethod "listItems" "", Payload := none }

/-! ### JSON arrays of integers -/

/-- What `json.MarshalIndent` returns for a non-nil Go `[]int`: `[]` for the
empty slice, otherwise one element per line, each line after the first
starting with the prefix and the elements indented once. -/
def marshalInts (xs : List Int) (pre ind : String) : Option String :=
  match xs with
  | [] => some "[]"
  | _ => some ("[\n" ++ ",\n".intercalate (xs.map fun x => pre ++ ind ++ toString x)
          ++ "\n" ++ pre ++ "]")

/-- JSON white space. -/
def isWs (c : Char) : Bool :=
  c = Char.ofNat 32 || c = Char.ofNat 10 || c = Char.ofNat 9 || c = Char.ofNat 13

/-- Skips leading white space. -/
def dropWs : List Char → List Char
  | [] => []
  | c :: cs => if isWs c then dropWs cs else c :: cs

/-- The value of a run of decimal digits. -/
def natOfDigits (ds : List Char) : Nat :=
  ds.foldl (fun n c => 10 * n + (c.toNat - 48)) 0

/-- Reads a JSON integer at the head of the text. -/
def readInt (cs : List Char) : Option (Int × List Char) :=
  match cs with
  | c :: r =>
    if c = Char.ofNat 45 then
      let ds := r.takeWhile Char.isDigit
      if ds.isEmpty then none else some (-(natOfDigits ds : Int), r.dropWhile Char.isDigit)
    else
      let ds := cs.takeWhile Char.isDigit
      if ds.isEmpty then none else some ((natOfDigits ds : Int), cs.dropWhile Char.isDigit)
  | [] => none

/-- Reads the elements of a non-empty JSON array up to its closing bracket;
the first argument bounds the number of elements. -/
def readElems : Nat → List Char → Option (List Int × List Char)
  | 0, _ => none
  | fuel + 1, cs =>
    match readInt (dropWs cs) with
    | none => none
    | some (n, rest) =>
      match dropWs rest with
      | c :: r =>
        if c = Char.ofNat 44 then
          match readElems fuel r with
          | some (ns, t) => some (n :: ns, t)
          | none => none
        else if c = Char.ofNat 93 then some ([n], r)
        else none
      | [] => none

/-- The decoding done by `json.Unmarshal` into a `[]int`, on JSON arrays of
integers: any other text is an error (`none`). -/
def decodeInts (s : String) : Option (List Int) :=
  match dropWs s.data with
  | c :: r =>
    if c = Char.ofNat 91 then
      match dropWs r with
      | d :: t =>
        if d = Char.ofNat 93 then (if dropWs t = [] then some [] else none)
        else
          match readElems s.length r with
          | some (ns, u) => if dropWs u = [] then some ns else none
          | none => none
      | [] => none
    else none
  | [] => none

/-- External functions for example values that are Go `[]int` slices. -/
def intsExt : Ext (List Int) where
  Goify := demoExt.Goify
  KebabCase := demoExt.KebabCase
  MarshalIndent := marshalInts
  Quote := demoExt.Quote

/-- The commands of the two sample services, as `ClientCLIFiles` builds
them. -/
def demoCommands : List (commandData Int) :=
  match ClientCLIData demoExt demoGet [{ Name := "calc" }, { Name := "health" }] with
  | Except.ok cmds => cmds
  | Except.error _ => []

/-! ## The log15 adapter (`log.go`) -/

/-- Go values passed as `interface{}` arguments: texts, integers and slices
of values. -/
inductive GoValue where
  | str (s : String)
  | int (n : Int)
  | slice (vs : List GoValue)

/-- The level methods of `log15.Logger` that the adapter calls. -/
inductive Log15Method where
  | Debug
  | Info
  | Warn
  | Error
  | Crit
  deriving DecidableEq, Repr

/-- One call of a method of the underlying `log15.Logger`: the message and
the elements of its variadic context. -/
structure Log15Call where
  method : Log15Method
  msg : String
  ctx : List GoValue

/-- The common body of the level methods of `Log15Adapter`, for the log15
method `m`: `if len(args) > 0 { first := args[0]; l.logger.m(first.(string), args[1:]) }`.
The result is the list of calls made on the underlying logger; a type
assertion `first.(string)` on another value panics (the `error` result).
The slice `args[1:]` is passed as one argument, without `...`. -/
def Log15Adapter.call (m : Log15Method) (args : List GoValue) :
    Except String (List Log15Call) :=
  match args with
  | [] => Except.ok []
  | first :: rest =>
    match first with
    | GoValue.str s => Except.ok [{ method := m, msg := s, ctx := [GoValue.slice rest] }]
    | _ => Except.error "interface conversion: interface \x7b\x7d is not string"

/-- The method `Log15Adapter.Debug`. -/
def Log15Adapter.Debug (args : List GoValue) : Except String (List Log15Call) :=
  Log15Adapter.call Log15Method.Debug args

/-- The method `Log15Adapter.Info`. -/
def Log15Adapter.Info (args : List GoValue) : Except String (List Log15Call) :=
  Log15Adapter.call Log15Method.Info args

/-- The method `Log15Adapter.Warning`, which calls `Warn`. -/
def Log15Adapter.Warning (args : List GoValue) : Except String (List Log15Call) :=
  Log15Adapter.call Log15Method.Warn args

/-- The method `Log15Adapter.Error`. -/
def Log15Adapter.Error (args : List GoValue) : Except String (List Log15Call) :=
  Log15Adapter.call Log15Method.Error args

/-- The method `Log15Adapter.Critical`, which calls `Crit`. -/
def Log15Adapter.Critical (args : List GoValue) : Except String (List Log15Call) :=
  Log15Adapter.call Log15Method.Crit args

/-! ## The gRPC server types of the basic example (`types.go`) -/

/-- The Go conversion `int32(x)`: the value of `x` wrapped to 32 bits, two's
complement. -/
def toInt32 (x : Int) : Int := (x + 2 ^ 31) % 2 ^ 32 - 2 ^ 31

/-- The Go conversion `int(x)` on a 64-bit platform. -/
def toInt (x : Int) : Int := (x + 2 ^ 63) % 2 ^ 64 - 2 ^ 63

/-- Modelled from the spec: `calcpb.AddRequest`, declared outside the file,
with its integer fields `A` and `B`. -/
structure AddRequest where
  A : Int
  B : Int
  deriving DecidableEq, Repr

/-- The payload `calcsvc.AddPayload` with its `int` fields. -/
structure AddPayload where
  A : Int
  B : Int
  deriving DecidableEq, Repr

/-- The response `calcpb.AddResponse`; `Field` is an `int32`, as the
conversion in `NewAddResponse` shows. -/
structure AddResponse where
  Field : Int
  deriving DecidableEq, Repr

/-- The function `NewAddPayload`. -/
def NewAddPayload (message : AddRequest) : AddPayload :=
  { A := toInt message.A, B := toInt message.B }

/-- The function `NewAddResponse`. -/
def NewAddResponse (result : Int) : AddResponse :=
  { Field := toInt32 result }

/-! ## The Go `flag` package, as the generated parser uses it -/

/-- The error handling modes of a `flag.FlagSet`. -/
inductive ErrorHandling where
  | ContinueOnError
  | ExitOnError
  | PanicOnError
  deriving DecidableEq, Repr

/-- A flag defined on a flag set: its name, whether its value is a boolean
flag (`IsBoolFlag`), and whether `Value.Set` accepts a text. -/
structure FlagDef where
  name : String
  isBool : Bool
  set : String → Bool

/-- A `flag.FlagSet`: its defined flags and its error handling. -/
structure FlagSet where
  formal : List FlagDef
  errorHandling : ErrorHandling

/-- The errors of `FlagSet.Parse`. -/
inductive FlagError where
  | badSyntax (arg : String)
  | help
  | notDefined (name : String)
  | needsArgument (name : String)
  | invalidValue (name value : String)
  deriving DecidableEq, Repr

/-- How `parseOne` reads one argument: not a flag (or the terminator `--`),
a syntax error, or a flag name with the value given after `=`, if any. -/
inductive FlagToken where
  | stop
  | bad (e : FlagError)
  | flag (name : String) (value : Option String)
  deriving DecidableEq, Repr

/-- The first half of `parseOne`: the tests on the dashes of the argument
and the split of `name` at its first `=` past the first character. -/
def flagToken (s : String) : FlagToken :=
  match s.data with
  | c0 :: c1 :: cs =>
    if c0 ≠ Char.ofNat 45 then FlagToken.stop
    else if c1 = Char.ofNat 45 ∧ cs = [] then FlagToken.stop
    else
      let name := if c1 = Char.ofNat 45 then cs else c1 :: cs
      match name with
      | [] => FlagToken.bad (FlagError.badSyntax s)
      | n0 :: ns =>
        if n0 = Char.ofNat 45 ∨ n0 = Char.ofNat 61 then FlagToken.bad (FlagError.badSyntax s)
        else
          match ns.dropWhile (fun c => c ≠ Char.ofNat 61) with
          | [] => FlagToken.flag (String.mk (n0 :: ns)) none
          | _ :: v =>
            FlagToken.flag (String.mk (n0 :: ns.takeWhile (fun c => c ≠ Char.ofNat 61)))
              (some (String.mk v))
  | _ => FlagToken.stop

/-- The update `f.actual[name] = flag`, with the value the flag was set to. -/
def setActual (actual : List (String × String)) (name value : String) :
    List (String × String) :=
  actual.filter (fun p => p.1 ≠ name) ++ [(name, value)]

/-- The loop of `FlagSet.Parse` over `parseOne`.  `pending` is a flag that
takes its value from the next argument.  The result is the map `f.actual`
(flag name and value, in the order of setting) or the first error. -/
def parseArgs (formal : List FlagDef) :
    List String → Option FlagDef → List (String × String) →
      Except FlagError (List (String × String))
  | [], none, actual => Except.ok actual
  | [], some fd, _ => Except.error (FlagError.needsArgument fd.name)
  | s :: rest, some fd, actual =>
    if fd.set s then parseArgs formal rest none (setActual actual fd.name s)
    else Except.error (FlagError.invalidValue fd.name s)
  | s :: rest, none, actual =>
    match flagToken s with
    | FlagToken.stop => Except.ok actual
    | FlagToken.bad e => Except.error e
    | FlagToken.flag name value =>
      match formal.find? (fun fd => fd.name = name) with
      | none =>
        if name = "help" ∨ name = "h" then Except.error FlagError.help
        else Except.error (FlagError.notDefined name)
      | some fd =>
        if fd.isBool then
          if fd.set (value.getD "true") then
            parseArgs formal rest none (setActual actual name (value.getD "true"))
          else Except.error (FlagError.invalidValue name (value.getD "true"))
        else
          match value with
          | some v =>
            if fd.set v then parseArgs formal rest none (setActual actual name v)
            else Except.error (FlagError.invalidValue name v)
          | none => parseArgs formal rest (some fd) actual

/-- What a call of `FlagSet.Parse` does: it returns nil (`ok`, with the flags
set), returns an error, exits the process after a parse error, or panics
with it. -/
inductive ParseResult where
  | ok (actual : List (String × String))
  | err (e : FlagError)
  | exit (e : FlagError)
  | panic (e : FlagError)
  deriving DecidableEq, Repr

/-- The status with which a flag set in the mode `ExitOnError` exits after
the parse error `e`: `os.Exit(2)`; from Go 1.15 on (`go115`), `os.Exit(0)`
when the error is `ErrHelp`. -/
def exitStatus (go115 : Bool) (e : FlagError) : Nat :=
  if go115 = true ∧ e = FlagError.help then 0 else 2

/-- The method `FlagSet.Parse`: on an error the error handling of the flag
set decides between `return err`, `os.Exit` and `panic(err)`. -/
def FlagSet.Parse (f : FlagSet) (arguments : List String) : ParseResult :=
  match parseArgs f.formal arguments none [] with
  | Except.ok actual => ParseResult.ok actual
  | Except.error e =>
    match f.errorHandling with
    | ErrorHandling.ContinueOnError => ParseResult.err e
    | ErrorHandling.ExitOnError => ParseResult.exit e
    | ErrorHandling.PanicOnError => ParseResult.panic e

/-! ## The generated `ParseEndpoint` (template `parseT`) -/

section Parser

variable {V P : Type}

/-- The Go `error` values that `ParseEndpoint` returns: a `fmt.Errorf` text,
or an error of a flag set. -/
inductive GoError where
  | text (s : String)
  | flag (e : FlagError)
  deriving DecidableEq, Repr

/-- What a run of the generated `ParseEndpoint` does: it returns its three
results (the endpoint, identified by client package and method, the payload
and the error, each possibly nil), exits the process after the parse error
`e` of a flag set (with the status `exitStatus`), or panics. -/
inductive Outcome (P : Type) where
  | returned (endpoint : Option (String × String)) (data : Option P) (err : Option GoError)
  | exit (e : FlagError)
  | panic
  deriving DecidableEq, Repr

/-- The flag set of a service command (template line 541): no flag is
defined on it and it is created with `flag.ContinueOnError`. -/
def serviceFlagSet : FlagSet :=
  { formal := [], errorHandling := ErrorHandling.ContinueOnError }

/-- The flag set of a subcommand (template lines 543-546): one string flag
per flag of the subcommand, created with `flag.ExitOnError`. -/
def endpointFlagSet (sub : subcommandData V) : FlagSet :=
  { formal := sub.Flags.map fun f => { name := f.Name, isBool := false, set := fun _ => true }
    errorHandling := ErrorHandling.ExitOnError }

/-- Whether the `var` block of `ParseEndpoint` defines a flag twice on one
flag set, on which `FlagSet.String` panics. -/
def redefinesFlag (data : List (commandData V)) : Bool :=
  data.any fun cmd => cmd.Subcommands.any fun sub =>
    !decide ((sub.Flags.map fun f => f.Name).Nodup)

/-- The end of `ParseEndpoint` (template lines 607-644) once the subcommand
is known: the endpoint flags are parsed when arguments are left, then the
payload is built.  `k` is `2+flag.NFlag()+svcf.NFlag()`; `run` is the run of
the generated build function or inline conversion on the flags that were
set, which is outside the template. -/
def endpointStage (run : subcommandData V → List (String × String) → Except GoError P)
    (cmd : commandData V) (sub : subcommandData V) (osArgs : List String) (k : Nat) :
    Outcome P :=
  let r :=
    if osArgs.length > k then (endpointFlagSet sub).Parse (osArgs.drop (k + 1))
    else ParseResult.ok []
  match r with
  | ParseResult.err e => Outcome.returned none none (some (GoError.flag e))
  | ParseResult.exit e => Outcome.exit e
  | ParseResult.panic _ => Outcome.panic
  | ParseResult.ok actual =>
    if sub.BuildFunction.isSome ∨ sub.Conversion ≠ "" then
      match run sub actual with
      | Except.error e => Outcome.returned none none (some e)
      | Except.ok d => Outcome.returned (some (cmd.PkgName, sub.MethodVarName)) (some d) none
    else Outcome.returned (some (cmd.PkgName, sub.MethodVarName)) none none

/-- The function `ParseEndpoint` that the template `parseT` generates for the
commands `data`, run on `os.Args = prog :: args`.  `G` is `flag.CommandLine`,
which belongs to the calling program.  A `switch` takes the first case that
matches. -/
def ParseEndpoint (X : Ext V) (G : FlagSet) (data : List (commandData V))
    (run : subcommandData V → List (String × String) → Except GoError P)
    (prog : String) (args : List String) : Outcome P :=
  let osArgs := prog :: args
  if redefinesFlag data then Outcome.panic
  else
    match G.Parse args with
    | ParseResult.err e => Outcome.returned none none (some (GoError.flag e))
    | ParseResult.exit e => Outcome.exit e
    | ParseResult.panic _ => Outcome.panic
    | ParseResult.ok gactual =>
      let n := gactual.length
      if osArgs.length < n + 3 then
        Outcome.returned none none (some (GoError.text "not enough arguments"))
      else
        match osArgs[1 + n]? with
        | none => Outcome.panic
        | some svcn =>
          match data.find? (fun cmd => cmd.Name = svcn) with
          | none =>
            Outcome.returned none none
              (some (GoError.text ("unknown service " ++ X.Quote svcn)))
          | some cmd =>
            match serviceFlagSet.Parse (osArgs.drop (2 + n)) with
            | ParseResult.err e => Outcome.returned none none (some (GoError.flag e))
            | ParseResult.exit e => Outcome.exit e
            | ParseResult.panic _ => Outcome.panic
            | ParseResult.ok sactual =>
              match osArgs[2 + n + sactual.length]? with
              | none => Outcome.panic
              | some epn =>
                match cmd.Subcommands.find? (fun sub => sub.Name = epn) with
                | none =>
                  Outcome.returned none none
                    (some (GoError.text
                      ("unknown " ++ X.Quote svcn ++ " endpoint " ++ X.Quote epn)))
                | some sub => endpointStage run cmd sub osArgs (2 + n + sactual.length)

end Parser

/-- The test of `parseOne` for an argument that may be a flag:
`len(s) >= 2 && s[0] == '-'`.  An argument that fails it is a positional
token, at which `FlagSet.Parse` stops. -/
def isFlagArg (s : String) : Bool :=
  match s.data with
  | c0 :: _ :: _ => decide (c0 = Char.ofNat 45)
  | _ => false

/-- The default `flag.CommandLine` without any flag defined by the program. -/
def plainCommandLine : FlagSet :=
  { formal := [], errorHandling := ErrorHandling.ExitOnError }

/-- A stand-in for the generated payload builders: the payload is the list
of the flag values that were set. -/
def demoRun (_ : subcommandData Int) (actual : List (String × String)) :
    Except GoError (List String) :=
  Except.ok (actual.map fun p => p.2)

/-! ## Lemmas on the flag synthesis -/

section Lemmas

variable {V : Type}

/-- The accumulating loop over `PayloadInit.Args` appends the images of the
arguments to the three lists it starts from. -/
theorem payloadFlags_loop (X : Ext V) (svcn en : String) (args : List (InitArgData V))
    (fs : List flagData) (as : List String) (gs : List (InitArgData V)) :
    args.foldl
      (fun acc arg =>
        let f := argToFlag X svcn en arg
        (acc.1 ++ [f], acc.2.1 ++ [f.FullName], acc.2.2 ++ [arg]))
      (fs, as, gs)
    = (fs ++ args.map (argToFlag X svcn en),
       as ++ args.map (fun a => (argToFlag X svcn en a).FullName),
       gs ++ args) := by
  induction args generalizing fs as gs with
  | nil => simp
  | cons a rest ih => simp [List.foldl_cons, ih]

/-- With a `PayloadInit`, the flags, actuals and arguments are the images of
its arguments, in order. -/
theorem payloadFlags_init (X : Ext V) (svcn en : String) (m : MethodData V)
    (p : PayloadData V) (init : InitData V) (h : p.Request.PayloadInit = some init) :
    payloadFlags X svcn en m p
      = (init.Args.map (argToFlag X svcn en),
         init.Args.map (fun a => (argToFlag X svcn en a).FullName),
         init.Args) := by
  simp only [payloadFlags, h]
  simpa using payloadFlags_loop X svcn en init.Args [] [] []

/-- Without a `PayloadInit` there are no actuals and at most the flag `p`. -/
theorem payloadFlags_noinit (X : Ext V) (svcn en : String) (m : MethodData V)
    (p : PayloadData V) (h : p.Request.PayloadInit = none) :
    payloadFlags X svcn en m p
      = (if p.Ref ≠ "" then
          [{ Name := "p"
             Type_ := flagType m.PayloadRef
             FullName := goify X svcn [en, "p"]
             Description := m.PayloadDesc
             Required := true
             Example := jsonExample X m.PayloadEx }]
         else [], [], []) := by
  simp only [payloadFlags, h]
  by_cases hr : p.Ref = "" <;> simp [hr]

/-- Formal parameters built from the flags of the arguments are the flags'
full names, and there is one field per argument, named after it. -/
theorem buildFields_map (X : Ext V) (g : InitArgData V → flagData) (args : List (InitArgData V)) :
    (buildFields X (args.map g) args).1 = args.map (fun a => (g a).FullName) ∧
    (buildFields X (args.map g) args).2.map (fun fd => fd.Name) = args.map (fun a => a.Name) ∧
    (buildFields X (args.map g) args).2.length = args.length := by
  induction args with
  | nil => simp [buildFields]
  | cons a rest ih =>
    obtain ⟨h1, h2, h3⟩ := ih
    simp [buildFields, h1, h2, h3]

/-- Without payload nothing is synthesized. -/
theorem subcommand_nopayload (X : Ext V) (svc : ServiceData V) (e : EndpointData V)
    (h : e.Payload = none) :
    (buildSubcommandData X svc e).Flags = [] ∧
    (buildSubcommandData X svc e).BuildFunction = none ∧
    (buildSubcommandData X svc e).Conversion = "" := by
  simp [buildSubcommandData, h]

/-- With a `PayloadInit` the flags are the images of its arguments, no
conversion is produced, and a build function exists exactly when there is at
least one argument. -/
theorem subcommand_init (X : Ext V) (svc : ServiceData V) (e : EndpointData V)
    (p : PayloadData V) (init : InitData V)
    (hp : e.Payload = some p) (hi : p.Request.PayloadInit = some init) :
    (buildSubcommandData X svc e).Flags
      = init.Args.map (argToFlag X svc.Service.Name e.Method.Name) ∧
    (buildSubcommandData X svc e).Conversion = "" ∧
    (init.Args = [] → (buildSubcommandData X svc e).BuildFunction = none) ∧
    (init.Args ≠ [] → ∃ bf, (buildSubcommandData X svc e).BuildFunction = some bf ∧
      bf.ActualParams = init.Args.map (fun a => (argToFlag X svc.Service.Name e.Method.Name a).FullName) ∧
      bf.FormalParams = init.Args.map (fun a => (argToFlag X svc.Service.Name e.Method.Name a).FullName) ∧
      bf.Fields.map (fun fd => fd.Name) = init.Args.map (fun a => a.Name) ∧
      bf.Fields.length = init.Args.length) := by
  have hf := payloadFlags_init X svc.Service.Name e.Method.Name e.Method p init hi
  obtain ⟨b1, b2, b3⟩ := buildFields_map X (argToFlag X svc.Service.Name e.Method.Name) init.Args
  cases hargs : init.Args with
  | nil =>
    simp [buildSubcommandData, hp, hf, hargs]
  | cons a rest =>
    rw [hargs] at b1 b2 b3
    simp only [List.map_cons, List.length_cons] at b1 b2 b3
    simp [buildSubcommandData, hp, hf, hargs]
    exact ⟨b1, b2, b3⟩

/-- Without a `PayloadInit` no build function is produced; a non-empty `Ref`
gives the single flag `p` and the inline conversion of that flag. -/
theorem subcommand_ref (X : Ext V) (svc : ServiceData V) (e : EndpointData V)
    (p : PayloadData V)
    (hp : e.Payload = some p) (hi : p.Request.PayloadInit = none) :
    (buildSubcommandData X svc e).BuildFunction = none ∧
    (p.Ref ≠ "" →
      (buildSubcommandData X svc e).Flags = [refFlag X svc e] ∧
      (buildSubcommandData X svc e).Conversion
        = conversionCode X "*p" "data" e.Method.Payload "p"
            (flagType e.Method.PayloadRef) (jsonExample X e.Method.PayloadEx) true) ∧
    (p.Ref = "" →
      (buildSubcommandData X svc e).Flags = [] ∧
      (buildSubcommandData X svc e).Conversion = "") := by
  have hf := payloadFlags_noinit X svc.Service.Name e.Method.Name e.Method p hi
  by_cases hr : p.Ref = ""
  · simp [buildSubcommandData, hp, hf, hr]
  · simp [buildSubcommandData, hp, hf, hr, refFlag]

/-! ## Lemmas on the conversion code -/

/-- A text of positive length is not the empty text. -/
theorem ne_empty_of_length_pos {s : String} (h : 0 < s.length) : s ≠ "" := by
  rintro rfl
  simp at h

/-- The error check is never empty. -/
theorem valueCheck_length_pos (errorVar errorType : String) :
    0 < (valueCheck errorVar errorType).length := by
  simp only [valueCheck, String.length_append]
  have : ("\nif err != nil \x7b\n\treturn nil, fmt.Errorf(\"invalid value for ").length = 60 := by
    decide
  omega

/-- The JSON decoding snippet is never empty. -/
theorem jsonDecodeCode_length_pos (X : Ext V) (frm dst errorVar ex : String) :
    0 < (jsonDecodeCode X frm dst errorVar ex).length := by
  simp only [jsonDecodeCode, String.length_append]
  have : ("err := json.Unmarshal([]byte(").length = 29 := by decide
  omega

/-- Whenever a case sets `checkErr`, the returned code is not empty. -/
theorem conversionTail_checked_length_pos (dst target errorVar errorType : String)
    (needCast : Bool) (parse cast : String) :
    0 < (conversionTail dst target errorVar errorType needCast parse cast true).length := by
  have h := valueCheck_length_pos errorVar errorType
  cases needCast <;> simp [conversionTail, String.length_append] <;> omega

/-- Apart from `int64`, `string` and the bytes type, every type name gets a
non-empty conversion. -/
theorem conversionCode_ne_empty (X : Ext V) (frm dst typeName errorVar errorType ex : String)
    (required : Bool) (h64 : typeName ≠ int64N) (hs : typeName ≠ stringN)
    (hb : typeName ≠ bytesN) :
    conversionCode X frm dst typeName errorVar errorType ex required ≠ "" := by
  apply ne_empty_of_length_pos
  unfold conversionCode
  simp only []
  by_cases c1 : typeName = boolN
  · rw [if_pos c1]; exact conversionTail_checked_length_pos _ _ _ _ _ _ _
  rw [if_neg c1]
  by_cases c2 : typeName = intN
  · rw [if_pos c2]; exact conversionTail_checked_length_pos _ _ _ _ _ _ _
  rw [if_neg c2]
  by_cases c3 : typeName = int32N
  · rw [if_pos c3]; exact conversionTail_checked_length_pos _ _ _ _ _ _ _
  rw [if_neg c3, if_neg h64]
  by_cases c5 : typeName = uintN
  · rw [if_pos c5]; exact conversionTail_checked_length_pos _ _ _ _ _ _ _
  rw [if_neg c5]
  by_cases c6 : typeName = uint32N
  · rw [if_pos c6]; exact conversionTail_checked_length_pos _ _ _ _ _ _ _
  rw [if_neg c6]
  by_cases c7 : typeName = uint64N
  · rw [if_pos c7]; exact conversionTail_checked_length_pos _ _ _ _ _ _ _
  rw [if_neg c7]
  by_cases c8 : typeName = float32N
  · rw [if_pos c8]; exact conversionTail_checked_length_pos _ _ _ _ _ _ _
  rw [if_neg c8]
  by_cases c9 : typeName = float64N
  · rw [if_pos c9]; exact conversionTail_checked_length_pos _ _ _ _ _ _ _
  rw [if_neg c9, if_neg hs, if_neg hb]
  exact jsonDecodeCode_length_pos _ _ _ _ _

/-- Outside the eleven native names the default case is taken. -/
theorem conversionCode_default (X : Ext V) (frm dst typeName errorVar errorType ex : String)
    (required : Bool) (h : typeName ∉ nativeNames) :
    conversionCode X frm dst typeName errorVar errorType ex required
      = jsonDecodeCode X frm dst errorVar ex := by
  simp only [nativeNames, scalarNames, List.mem_append, List.mem_cons, List.mem_singleton,
    List.not_mem_nil, or_false, not_or] at h
  obtain ⟨⟨h1, h2, h3, h4, h5, h6, h7, h8, h9, h10⟩, h11⟩ := h
  simp [conversionCode, h1, h2, h3, h4, h5, h6, h7, h8, h9, h10, h11]

end Lemmas

/-! ## Payload construction strategies -/

section Claims

variable {V : Type}

/-- C1: for every service and endpoint, the subcommand built by
`buildSubcommandData` never has both a build function and a non-empty
conversion. -/
theorem buildSubcommandData_exclusive (X : Ext V) (svc : ServiceData V) (e : EndpointData V) :
    ¬ ((buildSubcommandData X svc e).BuildFunction ≠ none ∧
       (buildSubcommandData X svc e).Conversion ≠ "") := by
  rintro ⟨hb, hc⟩
  cases hp : e.Payload with
  | none => exact hc (subcommand_nopayload X svc e hp).2.2
  | some p =>
    cases hi : p.Request.PayloadInit with
    | none => exact hb (subcommand_ref X svc e p hp hi).1
    | some init => exact hc (subcommand_init X svc e p init hp hi).2.1

/-- C2 (as amended): when exactly one flag is synthesized, the inline strategy
is used exactly when the flag comes from a bare payload reference: then there
is no build function and the conversion is the conversion code of the flag
`p`, non-empty unless the payload type is `int64`, `string` or the bytes
type; a single flag that comes from a one-argument `PayloadInit` gets a build
function and an empty conversion. -/
theorem single_flag_strategy (X : Ext V) (svc : ServiceData V) (e : EndpointData V)
    (h1 : (buildSubcommandData X svc e).Flags.length = 1) :
    (∀ p, e.Payload = some p → p.Request.PayloadInit = none →
      (buildSubcommandData X svc e).BuildFunction = none ∧
      (buildSubcommandData X svc e).Conversion
        = conversionCode X "*p" "data" e.Method.Payload "p"
            (flagType e.Method.PayloadRef) (jsonExample X e.Method.PayloadEx) true ∧
      (e.Method.Payload ∉ [int64N, stringN, bytesN] →
        (buildSubcommandData X svc e).Conversion ≠ "")) ∧
    (∀ p init, e.Payload = some p → p.Request.PayloadInit = some init →
      (buildSubcommandData X svc e).BuildFunction ≠ none ∧
      (buildSubcommandData X svc e).Conversion = "") := by
  constructor
  · intro p hp hi
    obtain ⟨hb, hne, he⟩ := subcommand_ref X svc e p hp hi
    have hr : p.Ref ≠ "" := by
      intro hr
      rw [(he hr).1] at h1
      simp at h1
    refine ⟨hb, (hne hr).2, ?_⟩
    intro hn
    simp only [List.mem_cons, List.mem_singleton, List.not_mem_nil, or_false, not_or] at hn
    rw [(hne hr).2]
    exact conversionCode_ne_empty X _ _ _ _ _ _ true hn.1 hn.2.1 hn.2.2
  · intro p init hp hi
    obtain ⟨hf, hc, _, hsome⟩ := subcommand_init X svc e p init hp hi
    have hargs : init.Args ≠ [] := by
      intro h0
      rw [hf, h0] at h1
      simp at h1
    obtain ⟨bf, hbf, _⟩ := hsome hargs
    exact ⟨by simp [hbf], hc⟩

/-- C3: when two or more flags are synthesized, a build function is produced
and the conversion is empty; the actual and the formal parameters are the
flags' full names in flag order, and there is one field per flag, the i-th
named after the i-th argument of the payload constructor. -/
theorem multi_flag_build_function (X : Ext V) (svc : ServiceData V) (e : EndpointData V)
    (h2 : 2 ≤ (buildSubcommandData X svc e).Flags.length) :
    ∃ bf p init,
      (buildSubcommandData X svc e).BuildFunction = some bf ∧
      (buildSubcommandData X svc e).Conversion = "" ∧
      e.Payload = some p ∧ p.Request.PayloadInit = some init ∧
      bf.ActualParams = (buildSubcommandData X svc e).Flags.map (fun f => f.FullName) ∧
      bf.FormalParams = (buildSubcommandData X svc e).Flags.map (fun f => f.FullName) ∧
      bf.Fields.length = (buildSubcommandData X svc e).Flags.length ∧
      bf.Fields.map (fun fd => fd.Name) = init.Args.map (fun a => a.Name) := by
  cases hp : e.Payload with
  | none =>
    rw [(subcommand_nopayload X svc e hp).1] at h2
    simp at h2
  | some p =>
    cases hi : p.Request.PayloadInit with
    | none =>
      obtain ⟨_, hne, he⟩ := subcommand_ref X svc e p hp hi
      by_cases hr : p.Ref = ""
      · rw [(he hr).1] at h2
        simp at h2
      · rw [(hne hr).1] at h2
        simp at h2
    | some init =>
      obtain ⟨hf, hc, _, hsome⟩ := subcommand_init X svc e p init hp hi
      have hargs : init.Args ≠ [] := by
        intro h0
        rw [hf, h0] at h2
        simp at h2
      obtain ⟨bf, hbf, ha, hfo, hn, hl⟩ := hsome hargs
      refine ⟨bf, p, init, hbf, hc, rfl, hi, ?_, ?_, ?_, hn⟩
      · rw [ha, hf, List.map_map]; rfl
      · rw [hfo, hf, List.map_map]; rfl
      · rw [hl, hf, List.length_map]

/-- C4: with a `PayloadInit` of arguments `a1..an`, exactly `n` flags are
synthesized, in argument order; flag `i` has type `flagType ai.TypeName` and
is required exactly when `ai` is. -/
theorem flags_of_payload_init (X : Ext V) (svc : ServiceData V) (e : EndpointData V)
    (p : PayloadData V) (init : InitData V)
    (hp : e.Payload = some p) (hi : p.Request.PayloadInit = some init) :
    (buildSubcommandData X svc e).Flags.length = init.Args.length ∧
    (buildSubcommandData X svc e).Flags
      = init.Args.map (argToFlag X svc.Service.Name e.Method.Name) ∧
    (buildSubcommandData X svc e).Flags.map (fun f => f.Type_)
      = init.Args.map (fun a => flagType a.TypeName) ∧
    (buildSubcommandData X svc e).Flags.map (fun f => f.Required)
      = init.Args.map (fun a => a.Required) := by
  have hf := (subcommand_init X svc e p init hp hi).1
  refine ⟨by rw [hf, List.length_map], hf, ?_, ?_⟩
  · rw [hf, List.map_map]; rfl
  · rw [hf, List.map_map]; rfl

/-- C5: for a bare payload reference (payload present, no `PayloadInit`,
non-empty `Ref`) exactly one flag is synthesized; it is named `p`, is
required, has type `flagType Method.PayloadRef` and example
`jsonExample Method.PayloadEx`. -/
theorem flag_of_payload_ref (X : Ext V) (svc : ServiceData V) (e : EndpointData V)
    (p : PayloadData V)
    (hp : e.Payload = some p) (hi : p.Request.PayloadInit = none) (hr : p.Ref ≠ "") :
    ∃ f, (buildSubcommandData X svc e).Flags = [f] ∧
      f.Name = "p" ∧ f.Required = true ∧
      f.Type_ = flagType e.Method.PayloadRef ∧
      f.Example = jsonExample X e.Method.PayloadEx :=
  ⟨refFlag X svc e, ((subcommand_ref X svc e p hp hi).2.1 hr).1, rfl, rfl, rfl, rfl⟩

/-- C6: for an endpoint without payload the subcommand has no flag, no build
function and an empty conversion. -/
theorem no_payload_no_flags (X : Ext V) (svc : ServiceData V) (e : EndpointData V)
    (h : e.Payload = none) :
    (buildSubcommandData X svc e).Flags = [] ∧
    (buildSubcommandData X svc e).BuildFunction = none ∧
    (buildSubcommandData X svc e).Conversion = "" :=
  subcommand_nopayload X svc e h

/-- C7: `flagType` maps each of the ten scalar native names to its upper
case, the bytes name to `STRING` and every other name to `JSON`; its result
is always one of the eleven flag kinds. -/
theorem flagType_mapping :
    (flagType "bool" = "BOOL" ∧ flagType "int" = "INT" ∧ flagType "int32" = "INT32" ∧
     flagType "int64" = "INT64" ∧ flagType "uint" = "UINT" ∧ flagType "uint32" = "UINT32" ∧
     flagType "uint64" = "UINT64" ∧ flagType "float32" = "FLOAT32" ∧
     flagType "float64" = "FLOAT64" ∧ flagType "string" = "STRING") ∧
    flagType bytesN = "STRING" ∧
    (∀ t, t ∉ nativeNames → flagType t = "JSON") ∧
    (∀ t, flagType t ∈ ["BOOL", "INT", "INT32", "INT64", "UINT", "UINT32", "UINT64",
      "FLOAT32", "FLOAT64", "STRING", "JSON"]) := by
  have hscalar : ∀ t ∈ scalarNames, ToUpper t ∈ ["BOOL", "INT", "INT32", "INT64", "UINT",
      "UINT32", "UINT64", "FLOAT32", "FLOAT64", "STRING", "JSON"] := by decide
  refine ⟨by decide, by decide, ?_, ?_⟩
  · intro t ht
    have h1 : t ∉ scalarNames := fun h => ht (List.mem_append_left _ h)
    have h2 : t ≠ bytesN := fun h => ht (List.mem_append_right _ (by simp [h]))
    simp [flagType, h1, h2]
  · intro t
    unfold flagType
    by_cases h1 : t ∈ scalarNames
    · rw [if_pos h1]; exact hscalar t h1
    · rw [if_neg h1]
      by_cases h2 : t = bytesN
      · rw [if_pos h2]; decide
      · rw [if_neg h2]; decide

/-- C8 (failing case): for the type name `int64` the returned code holds no
parse and no error check: it is empty when the value is required, and only
the boxing assignment otherwise. -/
theorem conversionCode_int64 (X : Ext V) (frm dst errorVar errorType ex : String) :
    conversionCode X frm dst "int64" errorVar errorType ex true = "" ∧
    conversionCode X frm dst "int64" errorVar errorType ex false = "\n" ++ dst ++ " = &val" := by
  constructor
  · simp [conversionCode, conversionTail, boolN, intN, int32N, int64N]
  · simp [conversionCode, conversionTail, boolN, intN, int32N, int64N, stringN, bytesN]
    rw [String.append_assoc]
    rfl

/-- C9 (failing case): for the type names `string` and bytes the returned
code is empty, whatever `required` is: the assignment prepared by the case is
never emitted. -/
theorem conversionCode_string_bytes (X : Ext V) (frm dst errorVar errorType ex : String)
    (required : Bool) :
    conversionCode X frm dst "string" errorVar errorType ex required = "" ∧
    conversionCode X frm dst "[]byte" errorVar errorType ex required = "" := by
  constructor
  · simp [conversionCode, conversionTail, boolN, intN, int32N, int64N, uintN, uint32N,
      uint64N, float32N, float64N, stringN, bytesN]
  · simp [conversionCode, conversionTail, boolN, intN, int32N, int64N, uintN, uint32N,
      uint64N, float32N, float64N, stringN, bytesN]

/-- C10: for every type name outside the eleven native names, and whatever
`required` is, `conversionCode` returns exactly the JSON decoding snippet:
`json.Unmarshal` of the flag text into `&dst`, then an error branch whose
message names `errorVar` and carries the quoted example. -/
theorem conversionCode_json (X : Ext V) (frm dst typeName errorVar errorType ex : String)
    (required : Bool) (h : typeName ∉ nativeNames) :
    conversionCode X frm dst typeName errorVar errorType ex required
      = "err := json.Unmarshal([]byte(" ++ frm ++ "), &" ++ dst ++ ")\n" ++
        "if err != nil \x7b\n" ++
        "\treturn nil, fmt.Errorf(\"invalid JSON for " ++ errorVar ++
          ", example of valid JSON:\\n%s\", " ++ X.Quote ex ++ ")\n" ++
        "\x7d" := by
  rw [conversionCode_default X frm dst typeName errorVar errorType ex required h]
  simp [jsonDecodeCode, String.append_assoc]

end Claims

/-! ## The theorems at the sample endpoints -/

/-- C2 fails as stated: the endpoint `neg`, with a one-argument `PayloadInit`,
has exactly one flag and yet gets a build function and an empty conversion. -/
theorem single_flag_inline_counterexample :
    (buildSubcommandData demoExt calcSvc negEndpoint).Flags.length = 1 ∧
    ¬ ((buildSubcommandData demoExt calcSvc negEndpoint).BuildFunction.isNone = true ∧
       (buildSubcommandData demoExt calcSvc negEndpoint).Conversion ≠ "") := by
  decide

/-- The amended C2 at the bare reference `User`: one flag, no build function,
a non-empty conversion. -/
theorem single_flag_strategy_witness :
    (buildSubcommandData demoExt calcSvc (refEndpoint "User")).Flags.length = 1 ∧
    (buildSubcommandData demoExt calcSvc (refEndpoint "User")).BuildFunction = none ∧
    (buildSubcommandData demoExt calcSvc (refEndpoint "User")).Conversion ≠ "" :=
  have h := (single_flag_strategy demoExt calcSvc (refEndpoint "User") (by decide)).1
    { Ref := "User", Request := { PayloadInit := none } } rfl rfl
  ⟨by decide, h.1, h.2.2 (by decide)⟩

/-- C3 at the endpoint `add` with its two flags. -/
theorem multi_flag_build_function_witness :
    2 ≤ (buildSubcommandData demoExt calcSvc addEndpoint).Flags.length ∧
    ∃ bf p init,
      (buildSubcommandData demoExt calcSvc addEndpoint).BuildFunction = some bf ∧
      (buildSubcommandData demoExt calcSvc addEndpoint).Conversion = "" ∧
      addEndpoint.Payload = some p ∧ p.Request.PayloadInit = some init ∧
      bf.ActualParams
        = (buildSubcommandData demoExt calcSvc addEndpoint).Flags.map (fun f => f.FullName) ∧
      bf.FormalParams
        = (buildSubcommandData demoExt calcSvc addEndpoint).Flags.map (fun f => f.FullName) ∧
      bf.Fields.length = (buildSubcommandData demoExt calcSvc addEndpoint).Flags.length ∧
      bf.Fields.map (fun fd => fd.Name) = init.Args.map (fun a => a.Name) :=
  ⟨by decide, multi_flag_build_function demoExt calcSvc addEndpoint (by decide)⟩

/-- C4 at the endpoint `add`: two flags of type `INT`, both required. -/
theorem flags_of_payload_init_witness :
    (buildSubcommandData demoExt calcSvc addEndpoint).Flags.length = 2 ∧
    (buildSubcommandData demoExt calcSvc addEndpoint).Flags.map (fun f => f.Type_)
      = ["INT", "INT"] ∧
    (buildSubcommandData demoExt calcSvc addEndpoint).Flags.map (fun f => f.Required)
      = [true, true] :=
  have h := flags_of_payload_init demoExt calcSvc addEndpoint
    { Ref := "*calcsvc.AddPayload"
      Request := { PayloadInit := some { Args := [intArg "a" "int" true, intArg "b" "int" true] } } }
    { Args := [intArg "a" "int" true, intArg "b" "int" true] } rfl rfl
  ⟨h.1, h.2.2.1.trans (by decide), h.2.2.2.trans (by decide)⟩

/-- C5 at the bare reference `User`. -/
theorem flag_of_payload_ref_witness :
    ∃ f, (buildSubcommandData demoExt calcSvc (refEndpoint "User")).Flags = [f] ∧
      f.Name = "p" ∧ f.Required = true ∧
      f.Type_ = flagType "User" ∧
      f.Example = jsonExample demoExt 1 :=
  flag_of_payload_ref demoExt calcSvc (refEndpoint "User")
    { Ref := "User", Request := { PayloadInit := none } } rfl rfl (by decide)

/-- C6 at the endpoint `ping`. -/
theorem no_payload_no_flags_witness :
    (buildSubcommandData demoExt calcSvc pingEndpoint).Flags = [] ∧
    (buildSubcommandData demoExt calcSvc pingEndpoint).BuildFunction = none ∧
    (buildSubcommandData demoExt calcSvc pingEndpoint).Conversion = "" :=
  no_payload_no_flags demoExt calcSvc pingEndpoint rfl

/-- C7 at the user type name `User`. -/
theorem flagType_mapping_witness : "User" ∉ nativeNames ∧ flagType "User" = "JSON" :=
  ⟨by decide, flagType_mapping.2.2.1 "User" (by decide)⟩

/-- C10 at the user type name `User`, for a required and an optional value. -/
theorem conversionCode_json_witness :
    "User" ∉ nativeNames ∧
    conversionCode demoExt "*p" "data" "User" "p" "JSON" "1" true
      = "err := json.Unmarshal([]byte(*p), &data)\nif err != nil \x7b\n\treturn nil, fmt.Errorf(\"invalid JSON for p, example of valid JSON:\\n%s\", \"1\")\n\x7d" :=
  ⟨by decide,
   (conversionCode_json demoExt "*p" "data" "User" "p" "JSON" "1" true (by decide)).trans
     (by decide)⟩

/-! ## Optional values and field load code -/

section FieldLemmas

variable {V : Type}

/-- The guard of `fieldLoadCode` goes around `loadCode`. -/
theorem fieldLoadCode_eq (X : Ext V) (actual ft : String) (arg : InitArgData V) :
    fieldLoadCode X actual ft arg
      = (if !arg.Required then "if " ++ actual ++ " != \"\" \x7b\n" else "")
          ++ loadCode X actual ft arg
          ++ (if !arg.Required then "\n\x7d" else "") := rfl

/-- With a value that is not required, each of the nine boolean and numeric
cases targets `val` and appends the boxing assignment. -/
theorem conversionCode_boxed (X : Ext V) (frm dst typeName errorVar errorType ex : String)
    (h : typeName ∈ [boolN, intN, int32N, int64N, uintN, uint32N, uint64N, float32N, float64N]) :
    conversionCode X frm dst typeName errorVar errorType ex false
      = conversionCode X frm "val" typeName errorVar errorType ex true
          ++ ("\n" ++ dst ++ " = &val") := by
  have hbox : "\n" ++ dst ++ " = &" ++ "val" = "\n" ++ dst ++ " = &val" := by
    rw [String.append_assoc]; rfl
  simp only [List.mem_cons, List.mem_singleton, List.not_mem_nil, or_false] at h
  rcases h with h | h | h | h | h | h | h | h | h <;> subst h <;>
    simp [conversionCode, conversionTail, boolN, intN, int32N, int64N, uintN, uint32N,
      uint64N, float32N, float64N, stringN, bytesN, hbox]

/-- A left fold that appends one text per element appends the joined texts. -/
theorem foldl_append_join {α : Type} (g : α → String) (l : List α) (init : String) :
    l.foldl (fun acc a => acc ++ g a) init = init ++ String.join (l.map g) := by
  induction l generalizing init with
  | nil => apply String.ext; simp [String.data_join]
  | cons a rest ih =>
    rw [List.foldl_cons, ih]
    apply String.ext
    simp [String.data_join]

/-- The example of a subcommand: command name, space, kebab-cased subcommand
name, then the flags. -/
theorem subcommand_example (X : Ext V) (svc : ServiceData V) (e : EndpointData V) :
    (buildSubcommandData X svc e).Example
      = X.Goify svc.Service.Name false ++ " "
          ++ X.KebabCase (buildSubcommandData X svc e).Name
          ++ String.join ((buildSubcommandData X svc e).Flags.map
              fun f => " --" ++ f.Name ++ " " ++ f.Example) := by
  have hg : (fun (ex : String) (f : flagData) => ex ++ " --" ++ f.Name ++ " " ++ f.Example)
      = fun ex f => ex ++ (" --" ++ f.Name ++ " " ++ f.Example) := by
    funext ex f
    simp [String.append_assoc]
  simp only [buildSubcommandData]
  rw [hg, foldl_append_join]

/-- A service with a first endpoint gets a command over all its endpoints,
with the example of the first. -/
theorem buildCommandData_cons (X : Ext V) (svc : ServiceData V) (e : EndpointData V)
    (es : List (EndpointData V)) (h : svc.Endpoints = e :: es) :
    ∃ cmd, buildCommandData X svc = Except.ok cmd ∧
      cmd.Name = X.Goify svc.Service.Name false ∧
      cmd.Subcommands = svc.Endpoints.map (buildSubcommandData X svc) ∧
      cmd.Example = (buildSubcommandData X svc e).Example := by
  simp [buildCommandData, h]

/-- A service without endpoint makes `buildCommandData` panic. -/
theorem buildCommandData_nil (X : Ext V) (svc : ServiceData V) (h : svc.Endpoints = []) :
    buildCommandData X svc
      = Except.error "runtime error: index out of range [0] with length 0" := by
  simp [buildCommandData, h]

/-- When every service has an endpoint, `ClientCLIData` returns the commands
of the services, position by position. -/
theorem ClientCLIData_ok (X : Ext V) (get : String → ServiceData V)
    (services : List ServiceExpr)
    (h : ∀ s ∈ services, (get s.Name).Endpoints ≠ []) :
    ∃ cmds, ClientCLIData X get services = Except.ok cmds ∧
      List.Forall₂ (fun s cmd => buildCommandData X (get s.Name) = Except.ok cmd)
        services cmds := by
  induction services with
  | nil => exact ⟨[], rfl, List.Forall₂.nil⟩
  | cons s rest ih =>
    obtain ⟨cmds, hc, hf⟩ := ih (fun t ht => h t (List.mem_cons_of_mem _ ht))
    have hs := h s (List.mem_cons_self _ _)
    cases he : (get s.Name).Endpoints with
    | nil => exact absurd he hs
    | cons e es =>
      obtain ⟨cmd, hcmd, _⟩ := buildCommandData_cons X (get s.Name) e es he
      refine ⟨cmd :: cmds, ?_, List.Forall₂.cons hcmd hf⟩
      simp [ClientCLIData, hcmd, hc]

end FieldLemmas

/-! ## Optional fields, command tree and usage text -/

section MoreClaims

variable {V : Type}

/-- C11 (as amended): for each of the nine boolean and numeric native type
names, the code for a value that is not required is the code for a required
value with destination `val`, followed by the boxing assignment
`dst = &val`; for a type name outside the eleven native names the JSON
snippet decodes into `&dst` directly, without boxing. -/
theorem conversionCode_optional (X : Ext V) (frm dst typeName errorVar errorType ex : String) :
    (typeName ∈ [boolN, intN, int32N, int64N, uintN, uint32N, uint64N, float32N, float64N] →
      conversionCode X frm dst typeName errorVar errorType ex false
        = conversionCode X frm "val" typeName errorVar errorType ex true
            ++ ("\n" ++ dst ++ " = &val")) ∧
    (typeName ∉ nativeNames →
      conversionCode X frm dst typeName errorVar errorType ex false
        = "err := json.Unmarshal([]byte(" ++ frm ++ "), &" ++ dst ++ ")\n" ++
          "if err != nil \x7b\n" ++
          "\treturn nil, fmt.Errorf(\"invalid JSON for " ++ errorVar ++
            ", example of valid JSON:\\n%s\", " ++ X.Quote ex ++ ")\n" ++
          "\x7d") := by
  refine ⟨conversionCode_boxed X frm dst typeName errorVar errorType ex, ?_⟩
  intro h
  rw [conversionCode_default X frm dst typeName errorVar errorType ex false h]
  simp [jsonDecodeCode, String.append_assoc]

/-- C12: for an argument that is not required, `fieldLoadCode` is the load
code of the field between the presence guard `if actual != "" {` and its
closing brace, each on a line of its own; for a required argument it is the
load code alone. -/
theorem fieldLoadCode_guard (X : Ext V) (actual ft : String) (arg : InitArgData V) :
    (arg.Required = false →
      fieldLoadCode X actual ft arg
        = "if " ++ actual ++ " != \"\" \x7b\n" ++ loadCode X actual ft arg ++ "\n\x7d") ∧
    (arg.Required = true →
      fieldLoadCode X actual ft arg = loadCode X actual ft arg) := by
  constructor
  · intro h
    rw [fieldLoadCode_eq]
    simp [h]
  · intro h
    rw [fieldLoadCode_eq]
    simp [h]

/-- C13: for an argument of type `string` the load code is the plain
assignment `name = actual` when the argument is required, and the assignment
of the address `name = &actual` inside the presence guard otherwise; no parse
and no error branch, whatever `Validate` holds. -/
theorem fieldLoadCode_string (X : Ext V) (actual ft : String) (arg : InitArgData V)
    (h : arg.TypeName = "string") :
    (arg.Required = true →
      fieldLoadCode X actual ft arg = arg.Name ++ " = " ++ actual) ∧
    (arg.Required = false →
      fieldLoadCode X actual ft arg
        = "if " ++ actual ++ " != \"\" \x7b\n" ++ arg.Name ++ " = &" ++ actual ++ "\n\x7d") := by
  have hs : arg.TypeName = stringN := h
  constructor
  · intro hr
    rw [fieldLoadCode_eq]
    simp [loadCode, hs, hr]
  · intro hr
    rw [fieldLoadCode_eq]
    simp [loadCode, hs, hr, String.append_assoc]

/-- C14 (failing case): for an argument of type `string` the validation code
is dropped: whatever `Validate` holds, the returned code is the assignment
alone (inside the guard when the argument is not required). -/
theorem fieldLoadCode_string_unvalidated (X : Ext V) (actual ft name desc tref validate : String)
    (ex : V) :
    fieldLoadCode X actual ft
        { Name := name, Description := desc, TypeName := "string", TypeRef := tref
          Required := true, Example := ex, Validate := validate }
      = name ++ " = " ++ actual ∧
    fieldLoadCode X actual ft
        { Name := name, Description := desc, TypeName := "string", TypeRef := tref
          Required := false, Example := ex, Validate := validate }
      = "if " ++ actual ++ " != \"\" \x7b\n" ++ name ++ " = &" ++ actual ++ "\n\x7d" := by
  constructor
  · rw [fieldLoadCode_eq]
    simp [loadCode, stringN]
  · rw [fieldLoadCode_eq]
    simp [loadCode, stringN, String.append_assoc]

/-- C15: for a service with at least one endpoint `buildCommandData` returns a
command with one subcommand per endpoint, subcommand `i` being
`buildSubcommandData` of endpoint `i`; and when every HTTP service has an
endpoint, `ClientCLIFiles` builds one command per service, command `i` from
service `i`. -/
theorem command_tree_order (X : Ext V) (get : String → ServiceData V)
    (services : List ServiceExpr) :
    (∀ svc : ServiceData V, svc.Endpoints ≠ [] →
      ∃ cmd, buildCommandData X svc = Except.ok cmd ∧
        cmd.Subcommands.length = svc.Endpoints.length ∧
        ∀ i : Nat, cmd.Subcommands[i]? = (svc.Endpoints[i]?).map (buildSubcommandData X svc)) ∧
    ((∀ s ∈ services, (get s.Name).Endpoints ≠ []) →
      ∃ cmds, ClientCLIData X get services = Except.ok cmds ∧
        cmds.length = services.length ∧
        List.Forall₂ (fun s cmd => buildCommandData X (get s.Name) = Except.ok cmd)
          services cmds) := by
  constructor
  · intro svc hne
    cases he : svc.Endpoints with
    | nil => exact absurd he hne
    | cons e es =>
      obtain ⟨cmd, hcmd, _, hsub, _⟩ := buildCommandData_cons X svc e es he
      refine ⟨cmd, hcmd, ?_, ?_⟩
      · rw [hsub, List.length_map, he]
      · intro i
        rw [hsub, List.getElem?_map, he]
  · intro h
    obtain ⟨cmds, hc, hf⟩ := ClientCLIData_ok X get services h
    exact ⟨cmds, hc, hf.length_eq.symm, hf⟩

/-- C16: on a service with at least one endpoint `buildCommandData` returns a
command whose example is the example of its first subcommand; on a service
without endpoint it returns no command but fails (the run-time panic of
`subcommands[0]`). -/
theorem buildCommandData_total (X : Ext V) (svc : ServiceData V) :
    (svc.Endpoints ≠ [] →
      ∃ cmd, buildCommandData X svc = Except.ok cmd ∧
        (cmd.Subcommands.head?).map (fun s => s.Example) = some cmd.Example) ∧
    (svc.Endpoints = [] → ∃ err, buildCommandData X svc = Except.error err) := by
  constructor
  · intro hne
    cases he : svc.Endpoints with
    | nil => exact absurd he hne
    | cons e es =>
      obtain ⟨cmd, hcmd, _, hsub, hex⟩ := buildCommandData_cons X svc e es he
      refine ⟨cmd, hcmd, ?_⟩
      rw [hsub, he, hex]
      rfl
  · intro h
    exact ⟨_, buildCommandData_nil X svc h⟩

/-- C17: the usage listing has one line per command, in command order; the
line of a command is its name, a space and the names of its subcommands
joined by `|`, between parentheses when there are several and bare when
there is one. -/
theorem usage_listing (data : List (commandData V)) :
    (endpointParserUsages data).length = data.length ∧
    (∀ (i : Nat) (cmd : commandData V), data[i]? = some cmd →
      ∃ line, (endpointParserUsages data)[i]? = some line ∧
        (∀ s, (cmd.Subcommands.map fun sub => sub.Name) = [s] →
          line = cmd.Name ++ " " ++ s) ∧
        (1 < cmd.Subcommands.length →
          line = cmd.Name ++ " (" ++
            "|".intercalate (cmd.Subcommands.map fun sub => sub.Name) ++ ")")) ∧
    renderUsages (endpointParserUsages data)
      = String.join ((endpointParserUsages data).map fun line => line ++ "\n") := by
  refine ⟨by simp [endpointParserUsages], ?_, rfl⟩
  intro i cmd hi
  have hline : (endpointParserUsages data)[i]?
      = some (cmd.Name ++ " "
          ++ (if (cmd.Subcommands.map fun sub => sub.Name).length > 1 then "(" else "")
          ++ "|".intercalate (cmd.Subcommands.map fun sub => sub.Name)
          ++ (if (cmd.Subcommands.map fun sub => sub.Name).length > 1 then ")" else "")) := by
    simp only [endpointParserUsages, List.getElem?_map, hi, Option.map_some']
  refine ⟨_, hline, ?_, ?_⟩
  · intro s hs
    simp only [hs, List.length_singleton, gt_iff_lt, lt_self_iff_false, if_false]
    apply String.ext
    simp [String.intercalate, String.intercalate.go]
  · intro hn
    have hlen : 1 < (cmd.Subcommands.map fun sub => sub.Name).length := by
      rwa [List.length_map]
    simp only [gt_iff_lt, hlen, if_true]
    apply String.ext
    simp [String.append_assoc]

/-- C18: the example of a subcommand is the command name, a space, the
subcommand name in kebab case and then, for each flag in order, ` --`, the
flag name, a space and the flag example; so it starts with the name of the
command that `buildCommandData` gives the service. -/
theorem subcommand_example_form (X : Ext V) (svc : ServiceData V) (e : EndpointData V) :
    (buildSubcommandData X svc e).Example
      = X.Goify svc.Service.Name false ++ " "
          ++ X.KebabCase (buildSubcommandData X svc e).Name
          ++ String.join ((buildSubcommandData X svc e).Flags.map
              fun f => " --" ++ f.Name ++ " " ++ f.Example) ∧
    (∀ cmd, buildCommandData X svc = Except.ok cmd →
      ∃ rest, (buildSubcommandData X svc e).Example = cmd.Name ++ rest) := by
  refine ⟨subcommand_example X svc e, ?_⟩
  intro cmd hcmd
  cases he : svc.Endpoints with
  | nil =>
    rw [buildCommandData_nil X svc he] at hcmd
    cases hcmd
  | cons e0 es =>
    obtain ⟨cmd0, h0, hname, _⟩ := buildCommandData_cons X svc e0 es he
    rw [h0] at hcmd
    cases hcmd
    refine ⟨" " ++ X.KebabCase (buildSubcommandData X svc e).Name
      ++ String.join ((buildSubcommandData X svc e).Flags.map
          fun f => " --" ++ f.Name ++ " " ++ f.Example), ?_⟩
    rw [hname, subcommand_example X svc e]
    simp [String.append_assoc]

/-- C20 (as amended): when the indented JSON of `v` is a single line, the
example is that JSON text itself, so a decoding that gives `v` on the JSON
text gives `v` on the example; when it spans several lines the example is the
text with its single quotes escaped, between single quotes; when marshalling
fails the example is `?`. -/
theorem jsonExample_cases (X : Ext V) (v : V) :
    (∀ b, X.MarshalIndent v "   " "   " = some b → containsNewline b = false →
      jsonExample X v = b ∧
      ∀ dec : String → Option V, dec b = some v → dec (jsonExample X v) = some v) ∧
    (∀ b, X.MarshalIndent v "   " "   " = some b → containsNewline b = true →
      jsonExample X v = "\x27" ++ escapeQuotes b ++ "\x27") ∧
    (X.MarshalIndent v "   " "   " = none → jsonExample X v = "?") := by
  refine ⟨?_, ?_, ?_⟩
  · intro b hb hn
    have h : jsonExample X v = b := by simp [jsonExample, hb, hn]
    exact ⟨h, fun dec hd => by rw [h]; exact hd⟩
  · intro b hb hn
    simp [jsonExample, hb, hn]
  · intro hb
    have hq : containsNewline "?" = false := by decide
    simp [jsonExample, hb, hq]

end MoreClaims

/-! ## The later theorems at the sample inputs -/

/-- C11 fails as stated: for the user type `User`, neither `string` nor
bytes, the code for a value that is not required is the JSON snippet, which
does not end with the boxing assignment. -/
theorem conversionCode_optional_counterexample :
    "User" ≠ stringN ∧ "User" ≠ bytesN ∧
    conversionCode demoExt "*p" "data" "User" "p" "JSON" "1" false
      = "err := json.Unmarshal([]byte(*p), &data)\nif err != nil \x7b\n\treturn nil, fmt.Errorf(\"invalid JSON for p, example of valid JSON:\\n%s\", \"1\")\n\x7d" ∧
    ("\ndata = &val".data).isSuffixOf
      (conversionCode demoExt "*p" "data" "User" "p" "JSON" "1" false).data = false := by
  decide

/-- The amended C11 at the type name `int`. -/
theorem conversionCode_optional_witness :
    conversionCode demoExt "calcAddA" "a" "int" "a" "INT" "1" false
      = "v, err := strconv.ParseInt(calcAddA, 10, 64)\nif err != nil \x7b\n\treturn nil, fmt.Errorf(\"invalid value for a, must be INT\")\n\x7dval = int(v)\na = &val" :=
  ((conversionCode_optional demoExt "calcAddA" "a" "int" "a" "INT" "1").1 (by decide)).trans
    (by decide)

/-- C12 at the `int` argument `a`, not required and required. -/
theorem fieldLoadCode_guard_witness :
    fieldLoadCode demoExt "calcAddA" "INT" (checkedArg false)
      = "if calcAddA != \"\" \x7b\n" ++ loadCode demoExt "calcAddA" "INT" (checkedArg false)
          ++ "\n\x7d" ∧
    fieldLoadCode demoExt "calcAddA" "INT" (checkedArg true)
      = loadCode demoExt "calcAddA" "INT" (checkedArg true) :=
  ⟨(fieldLoadCode_guard demoExt "calcAddA" "INT" (checkedArg false)).1 rfl,
   (fieldLoadCode_guard demoExt "calcAddA" "INT" (checkedArg true)).2 rfl⟩

/-- C13 at the `string` argument `name`. -/
theorem fieldLoadCode_string_witness :
    fieldLoadCode demoExt "calcAddName" "STRING" (nameArg true) = "name = calcAddName" ∧
    fieldLoadCode demoExt "calcAddName" "STRING" (nameArg false)
      = "if calcAddName != \"\" \x7b\nname = &calcAddName\n\x7d" :=
  ⟨((fieldLoadCode_string demoExt "calcAddName" "STRING" (nameArg true) rfl).1 rfl).trans
     (by decide),
   ((fieldLoadCode_string demoExt "calcAddName" "STRING" (nameArg false) rfl).2 rfl).trans
     (by decide)⟩

/-- C15 at the sample services `calc` and `health`. -/
theorem command_tree_order_witness :
    (∃ cmd, buildCommandData demoExt calcService = Except.ok cmd ∧
      cmd.Subcommands.length = 2) ∧
    (∃ cmds, ClientCLIData demoExt demoGet [{ Name := "calc" }, { Name := "health" }]
        = Except.ok cmds ∧ cmds.length = 2) :=
  have h := command_tree_order demoExt demoGet [{ Name := "calc" }, { Name := "health" }]
  ⟨(h.1 calcService (List.cons_ne_nil _ _)).imp fun _ hc => ⟨hc.1, hc.2.1⟩,
   (h.2 (by
      intro s hs
      simp only [List.mem_cons, List.mem_singleton, List.not_mem_nil, or_false] at hs
      rcases hs with rfl | rfl
      · exact List.cons_ne_nil _ _
      · exact List.cons_ne_nil _ _)).imp fun _ hc => ⟨hc.1, hc.2.1⟩⟩

/-- C16 at the service `calc` with its two endpoints and at the service
without endpoint. -/
theorem buildCommandData_total_witness :
    (∃ cmd, buildCommandData demoExt calcService = Except.ok cmd ∧
      (cmd.Subcommands.head?).map (fun s => s.Example) = some cmd.Example) ∧
    (∃ err, buildCommandData demoExt calcSvc = Except.error err) :=
  ⟨(buildCommandData_total demoExt calcService).1 (List.cons_ne_nil _ _),
   (buildCommandData_total demoExt calcSvc).2 rfl⟩

/-- C17 at the commands of the sample services: `calc (add|neg)` and
`health ping`. -/
theorem usage_listing_witness :
    (∃ line, (endpointParserUsages demoCommands)[0]? = some line ∧
      line = "calc (add|neg)") ∧
    (∃ line, (endpointParserUsages demoCommands)[1]? = some line ∧
      line = "health ping") :=
  have h := (usage_listing demoCommands).2.1
  ⟨(h 0 _ rfl).imp fun _ hl => ⟨hl.1, (hl.2.2 (by decide)).trans (by decide)⟩,
   (h 1 _ rfl).imp fun _ hl => ⟨hl.1, (hl.2.1 "ping" (by decide)).trans (by decide)⟩⟩

/-- C18 at the endpoint `add` of the service `calc`. -/
theorem subcommand_example_form_witness :
    ∃ rest, (buildSubcommandData demoExt calcService addEndpoint).Example = "calc" ++ rest :=
  (subcommand_example_form demoExt calcService addEndpoint).2
    { Name := "calc"
      Description := "Make requests to the \"calc\" service"
      Subcommands := calcService.Endpoints.map (buildSubcommandData demoExt calcService)
      Example := (buildSubcommandData demoExt calcService addEndpoint).Example
      PkgName := "calcsvcc" }
    rfl

/-- C19 (failing case): for the endpoint `listItems` the example is
`calc list-items`, while the name of the subcommand, which the endpoint
switch of the generated parser matches, is `listItems`. -/
theorem example_token_mismatch :
    ((buildSubcommandData kebabExt calcSvc listItemsEndpoint).Example.data.splitOn
        (Char.ofNat 32)).map String.mk = ["calc", "list-items"] ∧
    (buildSubcommandData kebabExt calcSvc listItemsEndpoint).Name = "listItems" := by
  decide

/-- C20 fails as stated: the example of the slice `[1, 2]` is its indented
JSON between single quotes; decoding it as JSON fails, while decoding the
JSON text itself gives the slice back. -/
theorem jsonExample_roundtrip_counterexample :
    jsonExample intsExt [1, 2] = "\x27[\n      1,\n      2\n   ]\x27" ∧
    decodeInts (jsonExample intsExt [1, 2]) = none ∧
    (intsExt.MarshalIndent [1, 2] "   " "   ").map decodeInts = some (some [1, 2]) := by
  decide

/-- The amended C20 at the integer example `1` and at the slice `[1, 2]`. -/
theorem jsonExample_cases_witness :
    jsonExample demoExt 1 = "1" ∧
    jsonExample intsExt [1, 2] = "\x27" ++ escapeQuotes "[\n      1,\n      2\n   ]" ++ "\x27" :=
  ⟨((jsonExample_cases demoExt 1).1 "1" (by decide) (by decide)).1,
   (jsonExample_cases intsExt [1, 2]).2.1 "[\n      1,\n      2\n   ]" (by decide) (by decide)⟩

/-! ## The generated parser -/

section ParserLemmas

variable {V P : Type}

/-- A positional token is not read as a flag. -/
theorem flagToken_positional (s : String) (h : isFlagArg s = false) :
    flagToken s = FlagToken.stop := by
  unfold isFlagArg at h
  unfold flagToken
  split
  · next c0 c1 cs heq =>
    rw [heq] at h
    simp only [decide_eq_false_iff_not] at h
    simp [h]
  · rfl

/-- `FlagSet.Parse` stops at a leading positional token: it returns nil and
no flag is set. -/
theorem Parse_positional (f : FlagSet) (s : String) (rest : List String)
    (h : isFlagArg s = false) : f.Parse (s :: rest) = ParseResult.ok [] := by
  simp [FlagSet.Parse, parseArgs, flagToken_positional s h]

/-- A parse without error returns nil, whatever the error handling. -/
theorem Parse_of_ok (f : FlagSet) (arguments : List String) (actual : List (String × String))
    (h : parseArgs f.formal arguments none [] = Except.ok actual) :
    f.Parse arguments = ParseResult.ok actual := by
  simp [FlagSet.Parse, h]

/-- On a parse error the error handling of the flag set decides. -/
theorem Parse_of_error (f : FlagSet) (arguments : List String) (e : FlagError)
    (h : parseArgs f.formal arguments none [] = Except.error e) :
    f.Parse arguments
      = match f.errorHandling with
        | ErrorHandling.ContinueOnError => ParseResult.err e
        | ErrorHandling.ExitOnError => ParseResult.exit e
        | ErrorHandling.PanicOnError => ParseResult.panic e := by
  simp [FlagSet.Parse, h]

/-- A flag set exits only in the mode `ExitOnError`, and then after the
parse error of its arguments. -/
theorem Parse_exit (f : FlagSet) (arguments : List String) (e : FlagError)
    (h : f.Parse arguments = ParseResult.exit e) :
    f.errorHandling = ErrorHandling.ExitOnError ∧
      parseArgs f.formal arguments none [] = Except.error e := by
  cases hp : parseArgs f.formal arguments none [] with
  | ok actual => rw [Parse_of_ok f arguments actual hp] at h; cases h
  | error e2 =>
    rw [Parse_of_error f arguments e2 hp] at h
    cases hm : f.errorHandling with
    | ContinueOnError => rw [hm] at h; cases h
    | ExitOnError =>
      rw [hm] at h
      simp only [ParseResult.exit.injEq] at h
      rw [h] at hp
      exact ⟨rfl, by rw [h]⟩
    | PanicOnError => rw [hm] at h; cases h

/-- Without defined flags a parse that succeeds sets no flag. -/
theorem parseArgs_no_formal (arguments : List String)
    (actual res : List (String × String))
    (h : parseArgs [] arguments none actual = Except.ok res) : res = actual := by
  cases arguments with
  | nil =>
    simp only [parseArgs, Except.ok.injEq] at h
    exact h.symm
  | cons s rest =>
    simp only [parseArgs] at h
    cases ht : flagToken s with
    | stop =>
      rw [ht] at h
      simp only [Except.ok.injEq] at h
      exact h.symm
    | bad e => rw [ht] at h; cases h
    | flag name value =>
      rw [ht] at h
      simp only [List.find?_nil] at h
      split at h <;> cases h

/-- The flag set of a service returns: nil with no flag set, or the error. -/
theorem serviceFlagSet_Parse (arguments : List String) :
    (parseArgs serviceFlagSet.formal arguments none [] = Except.ok [] ∧
      serviceFlagSet.Parse arguments = ParseResult.ok []) ∨
    (∃ e, parseArgs serviceFlagSet.formal arguments none [] = Except.error e ∧
      serviceFlagSet.Parse arguments = ParseResult.err e) := by
  cases hp : parseArgs serviceFlagSet.formal arguments none [] with
  | ok actual =>
    have h0 : actual = [] := parseArgs_no_formal arguments [] actual hp
    subst h0
    exact Or.inl ⟨rfl, Parse_of_ok serviceFlagSet arguments [] hp⟩
  | error e =>
    exact Or.inr ⟨e, rfl, by rw [Parse_of_error serviceFlagSet arguments e hp]; rfl⟩

/-- The flag set of a subcommand returns nil or exits; it never returns an
error and never panics. -/
theorem endpointFlagSet_Parse (sub : subcommandData V) (arguments : List String) :
    (∃ actual, parseArgs (endpointFlagSet sub).formal arguments none [] = Except.ok actual ∧
      (endpointFlagSet sub).Parse arguments = ParseResult.ok actual) ∨
    (∃ e, parseArgs (endpointFlagSet sub).formal arguments none [] = Except.error e ∧
      (endpointFlagSet sub).Parse arguments = ParseResult.exit e) := by
  cases hp : parseArgs (endpointFlagSet sub).formal arguments none [] with
  | ok actual => exact Or.inl ⟨actual, rfl, Parse_of_ok _ arguments actual hp⟩
  | error e =>
    exact Or.inr ⟨e, rfl, by rw [Parse_of_error _ arguments e hp]; rfl⟩

/-- The payload step of the last stage: what is returned once the endpoint
flags are parsed. -/
theorem endpointStage_parsed
    (run : subcommandData V → List (String × String) → Except GoError P)
    (cmd : commandData V) (sub : subcommandData V) (osArgs : List String) (k : Nat)
    (actual : List (String × String))
    (hk : osArgs.length > k)
    (hp : parseArgs (endpointFlagSet sub).formal (osArgs.drop (k + 1)) none []
      = Except.ok actual) :
    endpointStage run cmd sub osArgs k
      = if sub.BuildFunction.isSome ∨ sub.Conversion ≠ "" then
          match run sub actual with
          | Except.error e => Outcome.returned none none (some e)
          | Except.ok d => Outcome.returned (some (cmd.PkgName, sub.MethodVarName)) (some d) none
        else Outcome.returned (some (cmd.PkgName, sub.MethodVarName)) none none := by
  unfold endpointStage
  simp only [hk, if_true, Parse_of_ok _ _ actual hp]

/-- The last stage exits when the endpoint flags fail to parse. -/
theorem endpointStage_failed
    (run : subcommandData V → List (String × String) → Except GoError P)
    (cmd : commandData V) (sub : subcommandData V) (osArgs : List String) (k : Nat)
    (e : FlagError)
    (hk : osArgs.length > k)
    (hp : parseArgs (endpointFlagSet sub).formal (osArgs.drop (k + 1)) none []
      = Except.error e) :
    endpointStage run cmd sub osArgs k = Outcome.exit e := by
  have h := Parse_of_error (endpointFlagSet sub) (osArgs.drop (k + 1)) e hp
  have hm : (endpointFlagSet sub).errorHandling = ErrorHandling.ExitOnError := rfl
  rw [hm] at h
  unfold endpointStage
  simp only [hk, if_true, h]

/-- With arguments left for the endpoint flags, the last stage exits only
after the parse error of these arguments, and never panics. -/
theorem endpointStage_exit
    (run : subcommandData V → List (String × String) → Except GoError P)
    (cmd : commandData V) (sub : subcommandData V) (osArgs : List String) (k : Nat)
    (hk : osArgs.length > k) :
    (∀ e, endpointStage run cmd sub osArgs k = Outcome.exit e →
      parseArgs (endpointFlagSet sub).formal (osArgs.drop (k + 1)) none [] = Except.error e) ∧
    endpointStage run cmd sub osArgs k ≠ Outcome.panic := by
  rcases endpointFlagSet_Parse sub (osArgs.drop (k + 1)) with ⟨actual, hp, _⟩ | ⟨e2, hp, _⟩
  · rw [endpointStage_parsed run cmd sub osArgs k actual hk hp]
    constructor
    · intro e h
      split at h
      · split at h <;> cases h
      · cases h
    · intro h
      split at h
      · split at h <;> cases h
      · cases h
  · rw [endpointStage_failed run cmd sub osArgs k e2 hk hp]
    constructor
    · intro e h
      simp only [Outcome.exit.injEq] at h
      rw [← h]
      exact hp
    · intro h
      cases h

/-- An error returned by the last stage comes with a nil endpoint and a nil
payload. -/
theorem endpointStage_error
    (run : subcommandData V → List (String × String) → Except GoError P)
    (cmd : commandData V) (sub : subcommandData V) (osArgs : List String) (k : Nat)
    (ep : Option (String × String)) (d : Option P) (err : GoError)
    (h : endpointStage run cmd sub osArgs k = Outcome.returned ep d (some err)) :
    ep = none ∧ d = none := by
  unfold endpointStage at h
  generalize (if osArgs.length > k then (endpointFlagSet sub).Parse (osArgs.drop (k + 1))
    else ParseResult.ok []) = r at h
  cases r with
  | ok actual =>
    simp only at h
    split at h
    · split at h
      · simp only [Outcome.returned.injEq] at h
        exact ⟨h.1.symm, h.2.1.symm⟩
      · simp only [Outcome.returned.injEq] at h
        exact absurd h.2.2 (by simp)
    · simp only [Outcome.returned.injEq] at h
      exact absurd h.2.2 (by simp)
  | err e =>
    simp only [Outcome.returned.injEq] at h
    exact ⟨h.1.symm, h.2.1.symm⟩
  | exit c => cases h
  | panic e => cases h

/-- Unique flag names within every subcommand: the `var` block does not
panic. -/
theorem redefinesFlag_false (data : List (commandData V))
    (h : ∀ cmd ∈ data, ∀ sub ∈ cmd.Subcommands, (sub.Flags.map fun f => f.Name).Nodup) :
    redefinesFlag data = false := by
  unfold redefinesFlag
  rw [Bool.eq_false_iff]
  intro hany
  rw [List.any_eq_true] at hany
  obtain ⟨cmd, hcmd, hsub⟩ := hany
  rw [List.any_eq_true] at hsub
  obtain ⟨sub, hs, hn⟩ := hsub
  simp [h cmd hcmd sub hs] at hn

/-! ### The stages of `ParseEndpoint` -/

/-- A redefined flag makes the `var` block panic. -/
theorem ParseEndpoint_redefined (X : Ext V) (G : FlagSet) (data : List (commandData V))
    (run : subcommandData V → List (String × String) → Except GoError P)
    (prog : String) (args : List String) (hr : redefinesFlag data = true) :
    ParseEndpoint X G data run prog args = Outcome.panic := by
  simp [ParseEndpoint, hr]

/-- A parse error of `flag.CommandLine` is handled in its own mode. -/
theorem ParseEndpoint_global_error (X : Ext V) (G : FlagSet) (data : List (commandData V))
    (run : subcommandData V → List (String × String) → Except GoError P)
    (prog : String) (args : List String) (e : FlagError)
    (hr : redefinesFlag data = false)
    (hg : parseArgs G.formal args none [] = Except.error e) :
    ParseEndpoint X G data run prog args
      = match G.errorHandling with
        | ErrorHandling.ContinueOnError => Outcome.returned none none (some (GoError.flag e))
        | ErrorHandling.ExitOnError => Outcome.exit e
        | ErrorHandling.PanicOnError => Outcome.panic := by
  have h := Parse_of_error G args e hg
  cases hm : G.errorHandling <;> rw [hm] at h <;> simp [ParseEndpoint, hr, h]

/-- Fewer than two arguments after the global flags: the error is returned. -/
theorem ParseEndpoint_not_enough (X : Ext V) (G : FlagSet) (data : List (commandData V))
    (run : subcommandData V → List (String × String) → Except GoError P)
    (prog : String) (args : List String) (gactual : List (String × String))
    (hr : redefinesFlag data = false)
    (hg : parseArgs G.formal args none [] = Except.ok gactual)
    (hl : (prog :: args).length < gactual.length + 3) :
    ParseEndpoint X G data run prog args
      = Outcome.returned none none (some (GoError.text "not enough arguments")) := by
  have h := Parse_of_ok G args gactual hg
  simp only [ParseEndpoint, hr, h, Bool.false_eq_true, if_false, hl, if_true]

/-- The service token matches no command: the error is returned. -/
theorem ParseEndpoint_unknown_service (X : Ext V) (G : FlagSet)
    (data : List (commandData V))
    (run : subcommandData V → List (String × String) → Except GoError P)
    (prog : String) (args : List String) (gactual : List (String × String)) (svcn : String)
    (hr : redefinesFlag data = false)
    (hg : parseArgs G.formal args none [] = Except.ok gactual)
    (hl : gactual.length + 3 ≤ (prog :: args).length)
    (hs : (prog :: args)[1 + gactual.length]? = some svcn)
    (hf : data.find? (fun cmd => cmd.Name = svcn) = none) :
    ParseEndpoint X G data run prog args
      = Outcome.returned none none
          (some (GoError.text ("unknown service " ++ X.Quote svcn))) := by
  have h := Parse_of_ok G args gactual hg
  have hl2 : ¬ (prog :: args).length < gactual.length + 3 := by omega
  simp only [ParseEndpoint, hr, h, Bool.false_eq_true, if_false, hl2, hs, hf]

/-- The flag set of the service fails to parse: the error is returned. -/
theorem ParseEndpoint_service_flags (X : Ext V) (G : FlagSet)
    (data : List (commandData V))
    (run : subcommandData V → List (String × String) → Except GoError P)
    (prog : String) (args : List String) (gactual : List (String × String)) (svcn : String)
    (cmd : commandData V) (e : FlagError)
    (hr : redefinesFlag data = false)
    (hg : parseArgs G.formal args none [] = Except.ok gactual)
    (hl : gactual.length + 3 ≤ (prog :: args).length)
    (hs : (prog :: args)[1 + gactual.length]? = some svcn)
    (hf : data.find? (fun cmd => cmd.Name = svcn) = some cmd)
    (hp : parseArgs serviceFlagSet.formal ((prog :: args).drop (2 + gactual.length)) none []
      = Except.error e) :
    ParseEndpoint X G data run prog args
      = Outcome.returned none none (some (GoError.flag e)) := by
  have h := Parse_of_ok G args gactual hg
  have hl2 : ¬ (prog :: args).length < gactual.length + 3 := by omega
  have hsv : serviceFlagSet.Parse ((prog :: args).drop (2 + gactual.length))
      = ParseResult.err e := by
    rw [Parse_of_error serviceFlagSet _ e hp]; rfl
  simp only [ParseEndpoint, hr, h, Bool.false_eq_true, if_false, hl2, hs, hf, hsv]

/-- The endpoint token matches no subcommand of the command: the error is
returned. -/
theorem ParseEndpoint_unknown_endpoint (X : Ext V) (G : FlagSet)
    (data : List (commandData V))
    (run : subcommandData V → List (String × String) → Except GoError P)
    (prog : String) (args : List String) (gactual : List (String × String))
    (svcn epn : String) (cmd : commandData V)
    (hr : redefinesFlag data = false)
    (hg : parseArgs G.formal args none [] = Except.ok gactual)
    (hl : gactual.length + 3 ≤ (prog :: args).length)
    (hs : (prog :: args)[1 + gactual.length]? = some svcn)
    (hf : data.find? (fun cmd => cmd.Name = svcn) = some cmd)
    (hp : parseArgs serviceFlagSet.formal ((prog :: args).drop (2 + gactual.length)) none []
      = Except.ok [])
    (he : (prog :: args)[2 + gactual.length]? = some epn)
    (hsub : cmd.Subcommands.find? (fun sub => sub.Name = epn) = none) :
    ParseEndpoint X G data run prog args
      = Outcome.returned none none
          (some (GoError.text ("unknown " ++ X.Quote svcn ++ " endpoint " ++ X.Quote epn))) := by
  have h := Parse_of_ok G args gactual hg
  have hl2 : ¬ (prog :: args).length < gactual.length + 3 := by omega
  have hsv := Parse_of_ok serviceFlagSet _ [] hp
  simp only [ParseEndpoint, hr, h, Bool.false_eq_true, if_false, hl2, hs, hf, hsv,
    List.length_nil, Nat.add_zero, he, hsub]

/-- Service and endpoint are known: the last stage decides. -/
theorem ParseEndpoint_resolved (X : Ext V) (G : FlagSet)
    (data : List (commandData V))
    (run : subcommandData V → List (String × String) → Except GoError P)
    (prog : String) (args : List String) (gactual : List (String × String))
    (svcn epn : String) (cmd : commandData V) (sub : subcommandData V)
    (hr : redefinesFlag data = false)
    (hg : parseArgs G.formal args none [] = Except.ok gactual)
    (hl : gactual.length + 3 ≤ (prog :: args).length)
    (hs : (prog :: args)[1 + gactual.length]? = some svcn)
    (hf : data.find? (fun cmd => cmd.Name = svcn) = some cmd)
    (hp : parseArgs serviceFlagSet.formal ((prog :: args).drop (2 + gactual.length)) none []
      = Except.ok [])
    (he : (prog :: args)[2 + gactual.length]? = some epn)
    (hsub : cmd.Subcommands.find? (fun sub => sub.Name = epn) = some sub) :
    ParseEndpoint X G data run prog args
      = endpointStage run cmd sub (prog :: args) (2 + gactual.length) := by
  have h := Parse_of_ok G args gactual hg
  have hl2 : ¬ (prog :: args).length < gactual.length + 3 := by omega
  have hsv := Parse_of_ok serviceFlagSet _ [] hp
  simp only [ParseEndpoint, hr, h, Bool.false_eq_true, if_false, hl2, hs, hf, hsv,
    List.length_nil, Nat.add_zero, he, hsub]

/-- An error returned by `ParseEndpoint` comes with a nil endpoint and a nil
payload. -/
theorem ParseEndpoint_error (X : Ext V) (G : FlagSet) (data : List (commandData V))
    (run : subcommandData V → List (String × String) → Except GoError P)
    (prog : String) (args : List String)
    (ep : Option (String × String)) (d : Option P) (err : GoError)
    (h : ParseEndpoint X G data run prog args = Outcome.returned ep d (some err)) :
    ep = none ∧ d = none := by
  unfold ParseEndpoint at h
  simp only at h
  have key : ∀ e : GoError, Outcome.returned (P := P) none none (some e)
      = Outcome.returned ep d (some err) → ep = none ∧ d = none := by
    intro e he
    simp only [Outcome.returned.injEq] at he
    exact ⟨he.1.symm, he.2.1.symm⟩
  split at h
  · cases h
  · split at h
    · exact key _ h
    · cases h
    · cases h
    · split at h
      · exact key _ h
      · split at h
        · cases h
        · split at h
          · exact key _ h
          · split at h
            · exact key _ h
            · cases h
            · cases h
            · split at h
              · cases h
              · split at h
                · exact key _ h
                · exact endpointStage_error run _ _ _ _ ep d err h

/-- A result is a value or an error. -/
theorem except_cases {ε α : Type} (x : Except ε α) :
    (∃ a, x = Except.ok a) ∨ (∃ e, x = Except.error e) := by
  cases x with
  | ok a => exact Or.inl ⟨a, rfl⟩
  | error e => exact Or.inr ⟨e, rfl⟩

/-- An index below the length of `os.Args` holds a token. -/
theorem osArgs_token (osArgs : List String) (i : Nat) (h : i < osArgs.length) :
    ∃ t, osArgs[i]? = some t :=
  ⟨osArgs[i], List.getElem?_eq_getElem h⟩

end ParserLemmas

section ParserClaims

variable {V P : Type}

/-- C21 (as amended): the generated `ParseEndpoint` exits the process
exactly after a parse error `e` of a flag set in the mode `ExitOnError` on
the arguments of this run: `flag.CommandLine` on `os.Args[1:]`, or, once the
arguments are enough and the service and endpoint tokens are known, the flag
set of the subcommand on the arguments after the endpoint token; the exit
status is 2 (0 for the help error from Go 1.15 on).  It panics exactly on a
redefined flag or a parse error of `flag.CommandLine` in the mode
`PanicOnError`.  Every error it returns comes with a nil endpoint and a nil
payload, and it returns the error for a parse error of `flag.CommandLine` in
the mode `ContinueOnError`, for too few arguments, an unknown service, a
parse error of the service flag set, an unknown endpoint and a failed payload
build. -/
theorem ParseEndpoint_termination (X : Ext V) (G : FlagSet) (data : List (commandData V))
    (run : subcommandData V → List (String × String) → Except GoError P)
    (prog : String) (args : List String) :
    (∀ e, ParseEndpoint X G data run prog args = Outcome.exit e ↔
      redefinesFlag data = false ∧
      ((G.errorHandling = ErrorHandling.ExitOnError ∧
          parseArgs G.formal args none [] = Except.error e) ∨
       (∃ gactual svcn epn cmd sub,
          parseArgs G.formal args none [] = Except.ok gactual ∧
          gactual.length + 3 ≤ (prog :: args).length ∧
          (prog :: args)[1 + gactual.length]? = some svcn ∧
          data.find? (fun c => c.Name = svcn) = some cmd ∧
          parseArgs serviceFlagSet.formal ((prog :: args).drop (2 + gactual.length)) none []
            = Except.ok [] ∧
          (prog :: args)[2 + gactual.length]? = some epn ∧
          cmd.Subcommands.find? (fun s => s.Name = epn) = some sub ∧
          parseArgs (endpointFlagSet sub).formal ((prog :: args).drop (3 + gactual.length))
            none [] = Except.error e))) ∧
    (∀ (e : FlagError) (go115 : Bool),
      (e ≠ FlagError.help → exitStatus go115 e = 2) ∧
      exitStatus false e = 2 ∧ exitStatus true FlagError.help = 0) ∧
    (ParseEndpoint X G data run prog args = Outcome.panic ↔
      redefinesFlag data = true ∨
      (G.errorHandling = ErrorHandling.PanicOnError ∧
        ∃ e, parseArgs G.formal args none [] = Except.error e)) ∧
    (∀ ep d err, ParseEndpoint X G data run prog args = Outcome.returned ep d (some err) →
      ep = none ∧ d = none) ∧
    (redefinesFlag data = false →
      (∀ e, G.errorHandling = ErrorHandling.ContinueOnError →
        parseArgs G.formal args none [] = Except.error e →
        ParseEndpoint X G data run prog args
          = Outcome.returned none none (some (GoError.flag e))) ∧
      (∀ gactual, parseArgs G.formal args none [] = Except.ok gactual →
        ((prog :: args).length < gactual.length + 3 →
          ParseEndpoint X G data run prog args
            = Outcome.returned none none (some (GoError.text "not enough arguments"))) ∧
        (∀ svcn, gactual.length + 3 ≤ (prog :: args).length →
          (prog :: args)[1 + gactual.length]? = some svcn →
          (data.find? (fun c => c.Name = svcn) = none →
            ParseEndpoint X G data run prog args
              = Outcome.returned none none
                  (some (GoError.text ("unknown service " ++ X.Quote svcn)))) ∧
          (∀ cmd, data.find? (fun c => c.Name = svcn) = some cmd →
            (∀ e, parseArgs serviceFlagSet.formal
                  ((prog :: args).drop (2 + gactual.length)) none [] = Except.error e →
              ParseEndpoint X G data run prog args
                = Outcome.returned none none (some (GoError.flag e))) ∧
            (∀ epn, parseArgs serviceFlagSet.formal
                  ((prog :: args).drop (2 + gactual.length)) none [] = Except.ok [] →
              (prog :: args)[2 + gactual.length]? = some epn →
              (cmd.Subcommands.find? (fun s => s.Name = epn) = none →
                ParseEndpoint X G data run prog args
                  = Outcome.returned none none
                      (some (GoError.text
                        ("unknown " ++ X.Quote svcn ++ " endpoint " ++ X.Quote epn)))) ∧
              (∀ sub actual err, cmd.Subcommands.find? (fun s => s.Name = epn) = some sub →
                parseArgs (endpointFlagSet sub).formal
                  ((prog :: args).drop (3 + gactual.length)) none [] = Except.ok actual →
                (sub.BuildFunction.isSome ∨ sub.Conversion ≠ "") →
                run sub actual = Except.error err →
                ParseEndpoint X G data run prog args
                  = Outcome.returned none none (some err))))))) := by
  refine ⟨?_, ?_, ?_, ?_, ?_⟩
  · intro e
    constructor
    · intro h
      cases hr : redefinesFlag data with
      | true =>
        rw [ParseEndpoint_redefined X G data run prog args hr] at h
        cases h
      | false =>
        refine ⟨rfl, ?_⟩
        rcases except_cases (parseArgs G.formal args none []) with ⟨gactual, hg⟩ | ⟨e2, hg⟩
        · by_cases hl : (prog :: args).length < gactual.length + 3
          · rw [ParseEndpoint_not_enough X G data run prog args gactual hr hg hl] at h
            cases h
          · have hl2 : gactual.length + 3 ≤ (prog :: args).length := by omega
            obtain ⟨svcn, hs⟩ := osArgs_token (prog :: args) (1 + gactual.length) (by omega)
            cases hf : data.find? (fun c => decide (c.Name = svcn)) with
            | none =>
              rw [ParseEndpoint_unknown_service X G data run prog args gactual svcn
                hr hg hl2 hs hf] at h
              cases h
            | some cmd =>
              rcases serviceFlagSet_Parse ((prog :: args).drop (2 + gactual.length))
                with ⟨hp, _⟩ | ⟨e3, hp, _⟩
              · obtain ⟨epn, he⟩ :=
                  osArgs_token (prog :: args) (2 + gactual.length) (by omega)
                cases hsub : cmd.Subcommands.find? (fun s => decide (s.Name = epn)) with
                | none =>
                  rw [ParseEndpoint_unknown_endpoint X G data run prog args gactual svcn epn
                    cmd hr hg hl2 hs hf hp he hsub] at h
                  cases h
                | some sub =>
                  rw [ParseEndpoint_resolved X G data run prog args gactual svcn epn cmd sub
                    hr hg hl2 hs hf hp he hsub] at h
                  have hk : (prog :: args).length > 2 + gactual.length := by omega
                  have hpe := (endpointStage_exit run cmd sub (prog :: args)
                    (2 + gactual.length) hk).1 e h
                  have harith : 2 + gactual.length + 1 = 3 + gactual.length := by omega
                  rw [harith] at hpe
                  exact Or.inr ⟨gactual, svcn, epn, cmd, sub, hg, hl2, hs, hf, hp, he, hsub, hpe⟩
              · rw [ParseEndpoint_service_flags X G data run prog args gactual svcn cmd e3
                  hr hg hl2 hs hf hp] at h
                cases h
        · rw [ParseEndpoint_global_error X G data run prog args e2 hr hg] at h
          cases hm : G.errorHandling with
          | ContinueOnError => rw [hm] at h; cases h
          | ExitOnError =>
            rw [hm] at h
            simp only [Outcome.exit.injEq] at h
            exact Or.inl ⟨rfl, by rw [hg, h]⟩
          | PanicOnError => rw [hm] at h; cases h
    · rintro ⟨hr, ⟨hm, hg⟩ | ⟨gactual, svcn, epn, cmd, sub, hg, hl, hs, hf, hp, he, hsub, hpe⟩⟩
      · rw [ParseEndpoint_global_error X G data run prog args e hr hg, hm]
      · rw [ParseEndpoint_resolved X G data run prog args gactual svcn epn cmd sub
          hr hg hl hs hf hp he hsub]
        have harith : 2 + gactual.length + 1 = 3 + gactual.length := by omega
        exact endpointStage_failed run cmd sub (prog :: args) (2 + gactual.length) e
          (by omega) (by rw [harith]; exact hpe)
  · intro e go115
    refine ⟨?_, ?_, ?_⟩
    · intro hne
      simp [exitStatus, hne]
    · simp [exitStatus]
    · simp [exitStatus]
  · constructor
    · intro h
      cases hr : redefinesFlag data with
      | true => exact Or.inl rfl
      | false =>
        refine Or.inr ?_
        rcases except_cases (parseArgs G.formal args none []) with ⟨gactual, hg⟩ | ⟨e2, hg⟩
        · exfalso
          by_cases hl : (prog :: args).length < gactual.length + 3
          · rw [ParseEndpoint_not_enough X G data run prog args gactual hr hg hl] at h
            cases h
          · have hl2 : gactual.length + 3 ≤ (prog :: args).length := by omega
            obtain ⟨svcn, hs⟩ := osArgs_token (prog :: args) (1 + gactual.length) (by omega)
            cases hf : data.find? (fun c => decide (c.Name = svcn)) with
            | none =>
              rw [ParseEndpoint_unknown_service X G data run prog args gactual svcn
                hr hg hl2 hs hf] at h
              cases h
            | some cmd =>
              rcases serviceFlagSet_Parse ((prog :: args).drop (2 + gactual.length))
                with ⟨hp, _⟩ | ⟨e3, hp, _⟩
              · obtain ⟨epn, he⟩ :=
                  osArgs_token (prog :: args) (2 + gactual.length) (by omega)
                cases hsub : cmd.Subcommands.find? (fun s => decide (s.Name = epn)) with
                | none =>
                  rw [ParseEndpoint_unknown_endpoint X G data run prog args gactual svcn epn
                    cmd hr hg hl2 hs hf hp he hsub] at h
                  cases h
                | some sub =>
                  rw [ParseEndpoint_resolved X G data run prog args gactual svcn epn cmd sub
                    hr hg hl2 hs hf hp he hsub] at h
                  exact (endpointStage_exit run cmd sub (prog :: args)
                    (2 + gactual.length) (by omega)).2 h
              · rw [ParseEndpoint_service_flags X G data run prog args gactual svcn cmd e3
                  hr hg hl2 hs hf hp] at h
                cases h
        · rw [ParseEndpoint_global_error X G data run prog args e2 hr hg] at h
          cases hm : G.errorHandling with
          | ContinueOnError => rw [hm] at h; cases h
          | ExitOnError => rw [hm] at h; cases h
          | PanicOnError => exact ⟨rfl, e2, hg⟩
    · rintro (hr | ⟨hm, e, hg⟩)
      · exact ParseEndpoint_redefined X G data run prog args hr
      · cases hr : redefinesFlag data with
        | true => exact ParseEndpoint_redefined X G data run prog args hr
        | false => rw [ParseEndpoint_global_error X G data run prog args e hr hg, hm]
  · intro ep d err h
    exact ParseEndpoint_error X G data run prog args ep d err h
  · intro hr
    refine ⟨?_, ?_⟩
    · intro e hm hg
      rw [ParseEndpoint_global_error X G data run prog args e hr hg, hm]
    · intro gactual hg
      refine ⟨fun hl => ParseEndpoint_not_enough X G data run prog args gactual hr hg hl, ?_⟩
      intro svcn hl hs
      refine ⟨fun hf => ParseEndpoint_unknown_service X G data run prog args gactual svcn
        hr hg hl hs hf, ?_⟩
      intro cmd hf
      refine ⟨fun e hp => ParseEndpoint_service_flags X G data run prog args gactual svcn
        cmd e hr hg hl hs hf hp, ?_⟩
      intro epn hp he
      refine ⟨fun hsub => ParseEndpoint_unknown_endpoint X G data run prog args gactual
        svcn epn cmd hr hg hl hs hf hp he hsub, ?_⟩
      intro sub actual err hsub hpe hb hrun
      rw [ParseEndpoint_resolved X G data run prog args gactual svcn epn cmd sub
        hr hg hl hs hf hp he hsub]
      have harith : 2 + gactual.length + 1 = 3 + gactual.length := by omega
      rw [endpointStage_parsed run cmd sub (prog :: args) (2 + gactual.length) actual
        (by omega) (by rw [harith]; exact hpe)]
      rw [if_pos hb, hrun]

/-- C22: when flag names are unique within every subcommand and the
arguments start with two positional tokens, an unknown service token gives
the error `unknown service` naming the token, and a known service with an
unknown endpoint token gives the error `unknown ... endpoint` naming the
endpoint token; both come with a nil endpoint and a nil payload. -/
theorem ParseEndpoint_unknown_token (X : Ext V) (G : FlagSet) (data : List (commandData V))
    (run : subcommandData V → List (String × String) → Except GoError P)
    (prog svc ep : String) (rest : List String)
    (hu : ∀ cmd ∈ data, ∀ sub ∈ cmd.Subcommands, (sub.Flags.map fun f => f.Name).Nodup)
    (hs : isFlagArg svc = false) (he : isFlagArg ep = false) :
    ((∀ cmd ∈ data, cmd.Name ≠ svc) →
      ParseEndpoint X G data run prog (svc :: ep :: rest)
        = Outcome.returned none none
            (some (GoError.text ("unknown service " ++ X.Quote svc)))) ∧
    (∀ cmd, data.find? (fun c => c.Name = svc) = some cmd →
      (∀ sub ∈ cmd.Subcommands, sub.Name ≠ ep) →
      ParseEndpoint X G data run prog (svc :: ep :: rest)
        = Outcome.returned none none
            (some (GoError.text
              ("unknown " ++ X.Quote svc ++ " endpoint " ++ X.Quote ep)))) := by
  have hr := redefinesFlag_false data hu
  have hg := Parse_positional G svc (ep :: rest) hs
  have hsv := Parse_positional serviceFlagSet ep rest he
  constructor
  · intro hno
    have hfind : data.find? (fun c => decide (c.Name = svc)) = none := by
      rw [List.find?_eq_none]
      intro cmd hc
      simpa using hno cmd hc
    simp [ParseEndpoint, hr, hg, hfind]
  · intro cmd hfind hno
    have hsub : cmd.Subcommands.find? (fun sub => decide (sub.Name = ep)) = none := by
      rw [List.find?_eq_none]
      intro sub hc
      simpa using hno sub hc
    simp [ParseEndpoint, hr, hg, hfind, hsv, hsub]

end ParserClaims


/-! ## Logging adapter and gRPC types -/

/-- C23 (failing case): on a non-empty argument list whose first element is a
text, each level method calls the underlying logger once with that text as
message, but with a context of one element, the slice of the remaining
arguments, not with the remaining arguments themselves; on the empty list no
call is made. -/
theorem Log15Adapter_context (msg : String) (rest : List GoValue) :
    Log15Adapter.Debug (GoValue.str msg :: rest)
      = Except.ok [{ method := Log15Method.Debug, msg := msg, ctx := [GoValue.slice rest] }] ∧
    Log15Adapter.Info (GoValue.str msg :: rest)
      = Except.ok [{ method := Log15Method.Info, msg := msg, ctx := [GoValue.slice rest] }] ∧
    Log15Adapter.Warning (GoValue.str msg :: rest)
      = Except.ok [{ method := Log15Method.Warn, msg := msg, ctx := [GoValue.slice rest] }] ∧
    Log15Adapter.Error (GoValue.str msg :: rest)
      = Except.ok [{ method := Log15Method.Error, msg := msg, ctx := [GoValue.slice rest] }] ∧
    Log15Adapter.Critical (GoValue.str msg :: rest)
      = Except.ok [{ method := Log15Method.Crit, msg := msg, ctx := [GoValue.slice rest] }] ∧
    [GoValue.slice rest] ≠ rest ∧
    Log15Adapter.Debug [] = Except.ok [] ∧ Log15Adapter.Info [] = Except.ok [] ∧
    Log15Adapter.Warning [] = Except.ok [] ∧ Log15Adapter.Error [] = Except.ok [] ∧
    Log15Adapter.Critical [] = Except.ok [] := by
  refine ⟨rfl, rfl, rfl, rfl, rfl, ?_, rfl, rfl, rfl, rfl, rfl⟩
  intro h
  have hs := congrArg sizeOf h
  simp at hs
  omega

/-- C24 (as amended): for a result within the `int32` range the `Field` of
`NewAddResponse` equals the result; for every result it is the value of the
result wrapped to 32 bits; `NewAddPayload` copies `A` and `B` of the request
unchanged. -/
theorem NewAddResponse_value (result : Int) (message : AddRequest) :
    (-(2 ^ 31) ≤ result → result < 2 ^ 31 → (NewAddResponse result).Field = result) ∧
    (-(2 ^ 31) ≤ (NewAddResponse result).Field ∧ (NewAddResponse result).Field < 2 ^ 31 ∧
      ((NewAddResponse result).Field - result) % 2 ^ 32 = 0) ∧
    (-(2 ^ 63) ≤ message.A → message.A < 2 ^ 63 → -(2 ^ 63) ≤ message.B → message.B < 2 ^ 63 →
      NewAddPayload message = { A := message.A, B := message.B }) := by
  simp only [NewAddResponse, NewAddPayload, toInt32, toInt]
  refine ⟨?_, ⟨?_, ?_, ?_⟩, ?_⟩
  · intro h1 h2; omega
  · omega
  · omega
  · omega
  · intro h1 h2 h3 h4
    have ha : (message.A + 2 ^ 63) % 2 ^ 64 - 2 ^ 63 = message.A := by omega
    have hb : (message.B + 2 ^ 63) % 2 ^ 64 - 2 ^ 63 = message.B := by omega
    rw [ha, hb]

/-- C24 fails as stated: the result `2147483648` gives the `Field`
`-2147483648`. -/
theorem NewAddResponse_counterexample :
    (NewAddResponse 2147483648).Field = -2147483648 ∧
    (NewAddResponse 2147483648).Field ≠ 2147483648 := by
  decide

/-- The amended C24 at the result `3` and the request `1`, `2`. -/
theorem NewAddResponse_value_witness :
    (NewAddResponse 3).Field = 3 ∧ NewAddPayload { A := 1, B := 2 } = { A := 1, B := 2 } :=
  have h := NewAddResponse_value 3 { A := 1, B := 2 }
  ⟨h.1 (by decide) (by decide), h.2.2 (by decide) (by decide) (by decide) (by decide)⟩

/-- C21 fails as stated: on the sample commands the unknown endpoint flag
`--bogus` makes `ParseEndpoint` exit, with status 2 under every Go version;
nothing is returned. -/
theorem ParseEndpoint_exit_counterexample :
    ParseEndpoint demoExt plainCommandLine demoCommands demoRun "cli"
        ["calc", "add", "--bogus", "1"] = Outcome.exit (FlagError.notDefined "bogus") ∧
    exitStatus false (FlagError.notDefined "bogus") = 2 ∧
    exitStatus true (FlagError.notDefined "bogus") = 2 ∧
    ∀ ep d err, ParseEndpoint demoExt plainCommandLine demoCommands demoRun "cli"
        ["calc", "add", "--bogus", "1"] ≠ Outcome.returned ep d err := by
  refine ⟨by decide, by decide, by decide, ?_⟩
  intro ep d err h
  have h2 : ParseEndpoint demoExt plainCommandLine demoCommands demoRun "cli"
      ["calc", "add", "--bogus", "1"] = Outcome.exit (FlagError.notDefined "bogus") := by
    decide
  rw [h2] at h
  cases h

/-- The amended C21 on the sample commands: too few arguments and the
unknown service flag `-x` are returned as errors, and the exit on `--bogus`
comes from the parse error of the arguments of this run. -/
theorem ParseEndpoint_termination_witness :
    ParseEndpoint demoExt plainCommandLine demoCommands demoRun "cli" ["calc"]
      = Outcome.returned none none (some (GoError.text "not enough arguments")) ∧
    ParseEndpoint demoExt plainCommandLine demoCommands demoRun "cli" ["calc", "-x", "add"]
      = Outcome.returned none none (some (GoError.flag (FlagError.notDefined "x"))) ∧
    (redefinesFlag demoCommands = false ∧
      ((plainCommandLine.errorHandling = ErrorHandling.ExitOnError ∧
          parseArgs plainCommandLine.formal ["calc", "add", "--bogus", "1"] none []
            = Except.error (FlagError.notDefined "bogus")) ∨
       (∃ gactual svcn epn cmd sub,
          parseArgs plainCommandLine.formal ["calc", "add", "--bogus", "1"] none []
            = Except.ok gactual ∧
          gactual.length + 3 ≤ ("cli" :: ["calc", "add", "--bogus", "1"]).length ∧
          ("cli" :: ["calc", "add", "--bogus", "1"])[1 + gactual.length]? = some svcn ∧
          demoCommands.find? (fun c => c.Name = svcn) = some cmd ∧
          parseArgs serviceFlagSet.formal
            (("cli" :: ["calc", "add", "--bogus", "1"]).drop (2 + gactual.length)) none []
            = Except.ok [] ∧
          ("cli" :: ["calc", "add", "--bogus", "1"])[2 + gactual.length]? = some epn ∧
          cmd.Subcommands.find? (fun s => s.Name = epn) = some sub ∧
          parseArgs (endpointFlagSet sub).formal
            (("cli" :: ["calc", "add", "--bogus", "1"]).drop (3 + gactual.length)) none []
            = Except.error (FlagError.notDefined "bogus")))) :=
  ⟨(((ParseEndpoint_termination demoExt plainCommandLine demoCommands demoRun "cli"
        ["calc"]).2.2.2.2 (by decide)).2 [] rfl).1 (by decide),
   (((((ParseEndpoint_termination demoExt plainCommandLine demoCommands demoRun "cli"
        ["calc", "-x", "add"]).2.2.2.2 (by decide)).2 [] rfl).2 "calc" (by decide) rfl).2
        { Name := "calc"
          Description := "Make requests to the \"calc\" service"
          Subcommands := calcService.Endpoints.map (buildSubcommandData demoExt calcService)
          Example := (buildSubcommandData demoExt calcService addEndpoint).Example
          PkgName := "calcsvcc" }
        rfl).1 (FlagError.notDefined "x") rfl,
   ((ParseEndpoint_termination demoExt plainCommandLine demoCommands demoRun "cli"
        ["calc", "add", "--bogus", "1"]).1 (FlagError.notDefined "bogus")).mp (by decide)⟩

/-- C22 on the sample commands: the unknown service `calx` and the unknown
endpoint `mul` of the service `calc`. -/
theorem ParseEndpoint_unknown_token_witness :
    ParseEndpoint demoExt plainCommandLine demoCommands demoRun "cli" ["calx", "add"]
      = Outcome.returned none none (some (GoError.text "unknown service \"calx\"")) ∧
    ParseEndpoint demoExt plainCommandLine demoCommands demoRun "cli" ["calc", "mul"]
      = Outcome.returned none none
          (some (GoError.text "unknown \"calc\" endpoint \"mul\"")) :=
  ⟨((ParseEndpoint_unknown_token demoExt plainCommandLine demoCommands demoRun
        "cli" "calx" "add" [] (by decide) (by decide) (by decide)).1 (by decide)).trans
      (by decide),
   ((ParseEndpoint_unknown_token demoExt plainCommandLine demoCommands demoRun
        "cli" "calc" "mul" [] (by decide) (by decide) (by decide)).2
        { Name := "calc"
          Description := "Make requests to the \"calc\" service"
          Subcommands := calcService.Endpoints.map (buildSubcommandData demoExt calcService)
          Example := (buildSubcommandData demoExt calcService addEndpoint).Example
          PkgName := "calcsvcc" }
        rfl (by decide)).trans (by decide)⟩

end Goa
